import Mathlib

/-!
Verification of the gbam read-name tokenization and compression core
(`src/gbam_tools/src/tokenizer_encoding/*`, `src/gbam_tools/src/compressor.rs`).

Shallow embedding conventions: bytes are `Nat` (values < 256), byte strings are
`List Nat`, Rust machine integers are `Nat`/`Int` with explicit wrapping where
the source may wrap (Rust `as` casts truncate; release-profile arithmetic wraps).
Fallible Rust functions return `Except`/`Option`; `&mut self` methods thread the
state explicitly.  `f64` values that the source derives from exact integer
ratios are modelled as rationals (`ℚ`).
-/

namespace Gbam

/-- ASCII byte sequence of a string literal (used for error-message text). -/
def litBytes (s : String) : List Nat := s.data.map (fun c => c.toNat)

/-- Rust `str::split` / `ByteUtils::split_bytes` semantics: the segments between
delimiter occurrences, empty segments kept, `count(delims) + 1` segments in all
(`utils.rs`, `split_bytes`; `tokenizer.rs` uses `str::split` which agrees). -/
def splitOnDelims (isDelim : Nat → Bool) : List Nat → List (List Nat)
  | [] => [[]]
  | b :: rest =>
    if isDelim b then [] :: splitOnDelims isDelim rest
    else
      match splitOnDelims isDelim rest with
      | [] => [[b]]
      | h :: t => (b :: h) :: t

/-- `ByteUtils::count_byte`: occurrences of a byte in a slice. -/
def countByte (haystack : List Nat) (needle : Nat) : Nat :=
  (haystack.filter (fun b => b == needle)).length

/-- `ByteUtils::split_bytes` on a single delimiter byte. -/
def splitBytes (bytes : List Nat) (delimiter : Nat) : List (List Nat) :=
  splitOnDelims (fun b => b == delimiter) bytes

/-- `ByteUtils::common_prefix_length`. -/
def commonPrefixLen (a b : List Nat) : Nat :=
  ((a.zip b).takeWhile (fun p => p.1 == p.2)).length

/-- Joining parts with a single ':' byte (58); detokenization emits this shape. -/
def joinColon : List (List Nat) → List Nat
  | [] => []
  | [q] => q
  | q :: rest => q ++ 58 :: joinColon rest

/-- Little-endian decimal digits (ASCII) of `n`, fuel-based so that the kernel
can evaluate it.  Empty for `n = 0`. -/
def natToDecAux : Nat → Nat → List Nat
  | 0, _ => []
  | fuel + 1, n => if n = 0 then [] else (n % 10 + 48) :: natToDecAux fuel (n / 10)

/-- Rust `{integer}::to_string`: canonical decimal rendering, `0 → "0"`. -/
def natToDec (n : Nat) : List Nat :=
  if n = 0 then [48] else (natToDecAux (n + 1) n).reverse

def isAsciiDigit (b : Nat) : Bool := 48 ≤ b && b ≤ 57

/-- Error kinds of Rust `core::num::ParseIntError` reachable from unsigned
`from_str`. -/
inductive ParseIntErr
  | empty
  | invalidDigit
  | posOverflow
deriving DecidableEq

/-- Digit loop of Rust unsigned `from_str`: accumulate while checking each char
is a digit and the accumulator stays within the target type's range. -/
def parseUintDigits (maxVal : Nat) : Nat → List Nat → Except ParseIntErr Nat
  | acc, [] => .ok acc
  | acc, d :: rest =>
    if isAsciiDigit d then
      if acc * 10 + (d - 48) ≤ maxVal then parseUintDigits maxVal (acc * 10 + (d - 48)) rest
      else .error .posOverflow
    else .error .invalidDigit

/-- Rust `str::parse::<uN>` (unsigned `from_str`): optional leading `'+'`
(byte 43), then at least one decimal digit, value bounded by `maxVal`. -/
def parseUint (maxVal : Nat) (s : List Nat) : Except ParseIntErr Nat :=
  match s with
  | [] => .error .empty
  | b :: rest =>
    if b = 43 then
      match rest with
      | [] => .error .invalidDigit
      | _ => parseUintDigits maxVal 0 rest
    else parseUintDigits maxVal 0 (b :: rest)

def u8Max : Nat := 255
def u16Max : Nat := 65535
def u32Max : Nat := 4294967295

/-! ## Dictionary (`dictionary.rs`) -/

/-- `ReadNameDictionary`: four append-only interning tables.  The Rust struct
also keeps four `HashMap` reverse indices; each map entry is inserted exactly
once, at the position where the string is pushed, so the maps are represented
by positional lookup in the corresponding vector. -/
structure ReadNameDictionary where
  instruments : List (List Nat)
  flowcells : List (List Nat)
  umis : List (List Nat)
  indices : List (List Nat)
deriving DecidableEq

def ReadNameDictionary.new : ReadNameDictionary := ⟨[], [], [], []⟩

/-- Reverse lookup (`HashMap::get`): position of the interned string. -/
def lookupTable (table : List (List Nat)) (x : List Nat) : Option Nat :=
  match table with
  | [] => none
  | y :: rest => if y = x then some 0 else (lookupTable rest x).map (· + 1)

/-- Common shape of `add_instrument`/`add_flowcell`/`add_umi`/`add_index`:
return the existing id; else if `len >= cap` return the saturation value
`cap - 1` without appending; else append at the next id. -/
def tableAdd (cap : Nat) (table : List (List Nat)) (x : List Nat) :
    Nat × List (List Nat) :=
  match lookupTable table x with
  | some i => (i, table)
  | none =>
    if cap ≤ table.length then (cap - 1, table)
    else (table.length, table ++ [x])

def addInstrument (d : ReadNameDictionary) (x : List Nat) : Nat × ReadNameDictionary :=
  let r := tableAdd 255 d.instruments x
  (r.1, { d with instruments := r.2 })

def addFlowcell (d : ReadNameDictionary) (x : List Nat) : Nat × ReadNameDictionary :=
  let r := tableAdd 255 d.flowcells x
  (r.1, { d with flowcells := r.2 })

def addUmi (d : ReadNameDictionary) (x : List Nat) : Nat × ReadNameDictionary :=
  let r := tableAdd 65535 d.umis x
  (r.1, { d with umis := r.2 })

def addIndex (d : ReadNameDictionary) (x : List Nat) : Nat × ReadNameDictionary :=
  let r := tableAdd 255 d.indices x
  (r.1, { d with indices := r.2 })

def getInstrument (d : ReadNameDictionary) (id : Nat) : Option (List Nat) :=
  d.instruments.get? id

def getFlowcell (d : ReadNameDictionary) (id : Nat) : Option (List Nat) :=
  d.flowcells.get? id

def getUmi (d : ReadNameDictionary) (id : Nat) : Option (List Nat) :=
  d.umis.get? id

def getIndex (d : ReadNameDictionary) (id : Nat) : Option (List Nat) :=
  d.indices.get? id

/-! ## Coordinate encoder (`encoder.rs`) -/

structure CoordinateDeltas where
  xDelta : Int
  yDelta : Int
  tileDelta : Int
deriving DecidableEq

structure CoordinateEncoder where
  lastX : Nat
  lastY : Nat
  lastTile : Nat
deriving DecidableEq

def CoordinateEncoder.new : CoordinateEncoder := ⟨0, 0, 0⟩

/-- Rust `u as i32` for `u : u32`: truncating (two's-complement) conversion. -/
def u32AsI32 (u : Nat) : Int := if u < 2 ^ 31 then (u : Int) else (u : Int) - 2 ^ 32

/-- i32 arithmetic wraps on overflow (Rust release profile). -/
def wrapI32 (v : Int) : Int := (v + 2 ^ 31) % 2 ^ 32 - 2 ^ 31

/-- Rust `.clamp(i16::MIN as i32, i16::MAX as i32)`. -/
def clampI16 (v : Int) : Int := max (-32768) (min v 32767)

/-- Rust `v as u32` for a (here always non-negative) `v : i32`. -/
def i32AsU32 (v : Int) : Nat := (v % 2 ^ 32).toNat

/-- Rust `v as u16` for a (here always non-negative) `v : i32`. -/
def i32AsU16 (v : Int) : Nat := (v % 2 ^ 16).toNat

/-- `CoordinateEncoder::encode_coordinates`: clamped deltas against the running
state; the state is updated to the original (unclamped) values. -/
def encodeCoordinates (st : CoordinateEncoder) (x y tile : Nat) :
    CoordinateDeltas × CoordinateEncoder :=
  (⟨clampI16 (wrapI32 (u32AsI32 x - u32AsI32 st.lastX)),
    clampI16 (wrapI32 (u32AsI32 y - u32AsI32 st.lastY)),
    clampI16 (wrapI32 ((tile : Int) - (st.lastTile : Int)))⟩,
   ⟨x, y, tile⟩)

/-- `CoordinateEncoder::decode_coordinates`: add deltas to the state, clamp
negatives to 0, store and return the reconstruction. -/
def decodeCoordinates (st : CoordinateEncoder) (d : CoordinateDeltas) :
    (Nat × Nat × Nat) × CoordinateEncoder :=
  let nx := i32AsU32 (max (wrapI32 (u32AsI32 st.lastX + d.xDelta)) 0)
  let ny := i32AsU32 (max (wrapI32 (u32AsI32 st.lastY + d.yDelta)) 0)
  let nt := i32AsU16 (max (wrapI32 ((st.lastTile : Int) + d.tileDelta)) 0)
  ((nx, ny, nt), ⟨nx, ny, nt⟩)

/-- Encoding a whole sequence, threading the encoder state. -/
def encodeList (st : CoordinateEncoder) :
    List (Nat × Nat × Nat) → List CoordinateDeltas × CoordinateEncoder
  | [] => ([], st)
  | c :: rest =>
    let r := encodeCoordinates st c.1 c.2.1 c.2.2
    let rs := encodeList r.2 rest
    (r.1 :: rs.1, rs.2)

/-- Decoding a whole sequence, threading the encoder state. -/
def decodeList (st : CoordinateEncoder) :
    List CoordinateDeltas → List (Nat × Nat × Nat) × CoordinateEncoder
  | [] => ([], st)
  | d :: rest =>
    let r := decodeCoordinates st d
    let rs := decodeList r.2 rest
    (r.1 :: rs.1, rs.2)

/-! ## Pattern analyzer (`analyzer.rs`)

The `f64` ratio comparisons (`count as f64 / total as f64 > 0.8`, redundancy
`> 0.3`) are modelled as exact rational comparisons; the counts involved are
small integers that `f64` represents exactly, and at every point this
development evaluates them the quotient itself is exact. -/

inductive ReadNamePattern
  | illumina
  | pacbio
  | custom
  | unstructured
deriving DecidableEq

/-- `is_illumina_pattern`: at least 6 colons and at least 7 colon-separated
parts. -/
def isIlluminaPattern (name : List Nat) : Bool :=
  6 ≤ countByte name 58 && 7 ≤ (splitBytes name 58).length

/-- `is_pacbio_pattern`: contains '/' and exactly 2 of them. -/
def isPacbioPattern (name : List Nat) : Bool :=
  name.contains 47 && countByte name 47 == 2

/-- `has_custom_pattern`: minimum common-prefix length against `names[0]`
exceeds a third of `names[0]`'s length. -/
def hasCustomPattern (readNames : List (List Nat)) : Bool :=
  if readNames.length < 2 then false
  else
    match readNames with
    | [] => false
    | first :: _ =>
      let commonLen := ((readNames.map (fun n => commonPrefixLen first n)).min?).getD 0
      decide (first.length / 3 < commonLen)

/-- `ByteUtils::calculate_redundancy`: `1 - |distinct bytes| / total bytes`
(0 for empty input). -/
def calculateRedundancy (data : List (List Nat)) : ℚ :=
  let totalBytes := (data.map List.length).sum
  if totalBytes = 0 then 0
  else 1 - (data.flatten.dedup.length : ℚ) / (totalBytes : ℚ)

/-- `ReadNameAnalyzer::detect_pattern`. -/
def detectPattern (readNames : List (List Nat)) : ReadNamePattern :=
  if readNames.isEmpty then .unstructured
  else
    let illuminaCount := (readNames.filter isIlluminaPattern).length
    let pacbioCount := (readNames.filter isPacbioPattern).length
    let total := readNames.length
    if (4 : ℚ) / 5 < (illuminaCount : ℚ) / (total : ℚ) then .illumina
    else if (4 : ℚ) / 5 < (pacbioCount : ℚ) / (total : ℚ) then .pacbio
    else if hasCustomPattern readNames then .custom
    else .unstructured

/-- `ReadNameAnalyzer::should_tokenize`. -/
def shouldTokenize (readNames : List (List Nat)) : Bool :=
  if readNames.length < 10 then false
  else
    match detectPattern readNames with
    | .illumina => true
    | .pacbio => true
    | .custom => decide ((3 : ℚ) / 10 < calculateRedundancy readNames)
    | .unstructured => false

/-! ## RLE benefit (`post_compression.rs`) -/

/-- Loop of `calculate_rle_benefit`: walk the tail carrying the previous byte
and the current run length, flushing runs of length ≥ 3 into the pair
`(runs, total_run_length)`; the final run is flushed after the loop. -/
def rleBenefitLoop (prev currentRun runs totalRunLength : Nat) :
    List Nat → Nat × Nat
  | [] =>
    if 3 ≤ currentRun then (runs + 1, totalRunLength + currentRun)
    else (runs, totalRunLength)
  | b :: rest =>
    if b = prev then rleBenefitLoop b (currentRun + 1) runs totalRunLength rest
    else if 3 ≤ currentRun then
      rleBenefitLoop b 1 (runs + 1) (totalRunLength + currentRun) rest
    else rleBenefitLoop b 1 runs totalRunLength rest

/-- `calculate_rle_benefit`: 0 for inputs shorter than 10 bytes, else
`saturating_sub(total_run_length, 2*runs) / len`.  `usize::saturating_sub` is
`Nat` subtraction; the final `f64` quotient of two exactly representable
integers is modelled in `ℚ`. -/
def calculateRleBenefit (data : List Nat) : ℚ :=
  if data.length < 10 then 0
  else
    match data with
    | [] => 0
    | b0 :: rest =>
      let rt := rleBenefitLoop b0 1 0 0 rest
      ((rt.2 - 2 * rt.1 : Nat) : ℚ) / (data.length : ℚ)

/-- Lengths of the maximal runs of equal adjacent bytes (helper for the
claimed formula). -/
def runLengthsAux (a k : Nat) : List Nat → List Nat
  | [] => [k]
  | b :: rest =>
    if b = a then runLengthsAux a (k + 1) rest else k :: runLengthsAux b 1 rest

def runLengths : List Nat → List Nat
  | [] => []
  | a :: rest => runLengthsAux a 1 rest

/-- The claimed formula, stated from the specification's words for comparison
with `calculateRleBenefit`: bytes saved only against maximal runs of length
≥ 3, `Σ run_len − 2 × count`, divided by the input length. -/
def specRleBenefit (data : List Nat) : ℚ :=
  let long := (runLengths data).filter (fun r => 3 ≤ r)
  ((long.sum - 2 * long.length : Nat) : ℚ) / (data.length : ℚ)

/-! ## Parallel compressor (`compressor.rs`) — sequential model

The completion channel is a flume unbounded MPMC channel, received from one
task at a time: a FIFO queue.  The claims quantify over states in which all
submitted work has already completed, so the model delivers each submission's
completion to the queue at submission time; the scratch-buffer pool does not
interact with the drain logic and is omitted. -/

inductive OrderingKey
  | key : Nat → OrderingKey
  | unusedBlock
deriving DecidableEq

def OrderingKey.isKey : OrderingKey → Bool
  | .key _ => true
  | .unusedBlock => false

/-- `CompressTask` (its `BlockInfo` lives in the writer module outside `src/`
and is opaque to the claims; the byte buffer is kept). -/
structure CompressTask where
  orderingKey : OrderingKey
  buf : List Nat
deriving DecidableEq

structure CompressorSt where
  queue : List CompressTask
  sent : Nat
  received : Nat
deriving DecidableEq

/-- `Compressor::new(thread_num)`: primes the completion queue with
`thread_num` `UnusedBlock` sentinels, each carrying a zeroed buffer of
`SIZE_LIMIT` bytes (`SIZE_LIMIT` is a crate constant defined outside `src/`,
taken here as a parameter). -/
def compressorNew (sizeLimit threadNum : Nat) : CompressorSt :=
  { queue := List.replicate threadNum ⟨.unusedBlock, List.replicate sizeLimit 0⟩
    sent := 0
    received := 0 }

/-- `compress_block` in the quiesced view the claim takes ("once all submitted
work has completed"): the submission bumps `sent`, and its completion has been
pushed onto the FIFO completion queue. -/
def submitCompleted (st : CompressorSt) (t : CompressTask) : CompressorSt :=
  { st with sent := st.sent + 1, queue := st.queue ++ [t] }

/-- `get_compr_block`: receive one task; only `Key` completions bump
`received`. -/
def getComprBlock (st : CompressorSt) : Option (CompressTask × CompressorSt) :=
  match st.queue with
  | [] => none
  | t :: rest =>
    some (t, { st with
               queue := rest
               received := st.received + if t.orderingKey.isKey then 1 else 0 })

/-- `finish` drain loop: pop tasks until `received == sent`.  (Popping an empty
queue would block the real program; under the all-work-completed premise the
queue always holds the missing `Key` completions.) -/
def finishAux : List CompressTask → Nat → Nat → List CompressTask
  | [], _, _ => []
  | t :: rest, received, sent =>
    if received = sent then []
    else t :: finishAux rest (received + if t.orderingKey.isKey then 1 else 0) sent

/-- `Compressor::finish`. -/
def compressorFinish (st : CompressorSt) : List CompressTask :=
  finishAux st.queue st.received st.sent

/-! ## UTF-8 (`std::str::from_utf8`, `String::from_utf8_lossy`)

`tokenize_single` first validates its byte slice as UTF-8, and the batch error
message renders the offending name lossily.  Both are modelled byte-for-byte
after `core::str::validations::run_utf8_validation` (error position
`valid_up_to` and `error_len` per the maximal-subpart policy) and
`String::from_utf8_lossy`. -/

/-- UTF-8 continuation byte `0x80..=0xBF`. -/
def isCont (b : Nat) : Bool := 128 ≤ b && b ≤ 191

/-- Allowed second byte after first byte `b` of a multi-byte sequence. -/
def utf8Second (b c : Nat) : Bool :=
  if b = 0xE0 then 0xA0 ≤ c && c ≤ 0xBF
  else if b = 0xED then 0x80 ≤ c && c ≤ 0x9F
  else if b = 0xF0 then 0x90 ≤ c && c ≤ 0xBF
  else if b = 0xF4 then 0x80 ≤ c && c ≤ 0x8F
  else isCont c

/-- `std::str::from_utf8` validation; on failure returns
`(valid_up_to, error_len)` of the `Utf8Error` (`error_len = none` when the
input ends inside a sequence). -/
def utf8ValidateAux : Nat → List Nat → Except (Nat × Option Nat) Unit
  | _, [] => .ok ()
  | pos, b :: rest =>
    if b ≤ 0x7F then utf8ValidateAux (pos + 1) rest
    else if 0xC2 ≤ b && b ≤ 0xDF then
      match rest with
      | [] => .error (pos, none)
      | c :: rest2 =>
        if isCont c then utf8ValidateAux (pos + 2) rest2
        else .error (pos, some 1)
    else if 0xE0 ≤ b && b ≤ 0xEF then
      match rest with
      | [] => .error (pos, none)
      | c :: rest2 =>
        if utf8Second b c then
          match rest2 with
          | [] => .error (pos, none)
          | c2 :: rest3 =>
            if isCont c2 then utf8ValidateAux (pos + 3) rest3
            else .error (pos, some 2)
        else .error (pos, some 1)
    else if 0xF0 ≤ b && b ≤ 0xF4 then
      match rest with
      | [] => .error (pos, none)
      | c :: rest2 =>
        if utf8Second b c then
          match rest2 with
          | [] => .error (pos, none)
          | c2 :: rest3 =>
            if isCont c2 then
              match rest3 with
              | [] => .error (pos, none)
              | c3 :: rest4 =>
                if isCont c3 then utf8ValidateAux (pos + 4) rest4
                else .error (pos, some 3)
            else .error (pos, some 2)
        else .error (pos, some 1)
    else .error (pos, some 1)

/-- U+FFFD REPLACEMENT CHARACTER, UTF-8 encoded. -/
def repChar : List Nat := [0xEF, 0xBF, 0xBD]

/-- `String::from_utf8_lossy` (then back to bytes): valid sequences are kept,
each maximal invalid subpart becomes one replacement character. -/
def utf8Lossy : List Nat → List Nat
  | [] => []
  | b :: rest =>
    if b ≤ 0x7F then b :: utf8Lossy rest
    else if 0xC2 ≤ b && b ≤ 0xDF then
      match rest with
      | [] => repChar
      | c :: rest2 =>
        if isCont c then b :: c :: utf8Lossy rest2
        else repChar ++ utf8Lossy (c :: rest2)
    else if 0xE0 ≤ b && b ≤ 0xEF then
      match rest with
      | [] => repChar
      | c :: rest2 =>
        if utf8Second b c then
          match rest2 with
          | [] => repChar
          | c2 :: rest3 =>
            if isCont c2 then b :: c :: c2 :: utf8Lossy rest3
            else repChar ++ utf8Lossy (c2 :: rest3)
        else repChar ++ utf8Lossy (c :: rest2)
    else if 0xF0 ≤ b && b ≤ 0xF4 then
      match rest with
      | [] => repChar
      | c :: rest2 =>
        if utf8Second b c then
          match rest2 with
          | [] => repChar
          | c2 :: rest3 =>
            if isCont c2 then
              match rest3 with
              | [] => repChar
              | c3 :: rest4 =>
                if isCont c3 then b :: c :: c2 :: c3 :: utf8Lossy rest4
                else repChar ++ utf8Lossy (c3 :: rest4)
            else repChar ++ utf8Lossy (c2 :: rest3)
        else repChar ++ utf8Lossy (c :: rest2)
    else repChar ++ utf8Lossy rest
termination_by l => l.length
decreasing_by all_goals (simp [List.length_cons]; try omega)

/-! ## Tokenizer (`tokenizer.rs`, `error.rs`) -/

inductive TokenizationError
  | invalidFormat (msg : List Nat)
  | parseError (msg : List Nat)
  | invalidDictionary (msg : List Nat)
  | unsupportedPattern (msg : List Nat)
deriving DecidableEq

/-- `fmt::Display` of `TokenizationError` (`error.rs`). -/
def displayTokenizationError : TokenizationError → List Nat
  | .invalidFormat m => litBytes "Invalid format: " ++ m
  | .parseError m => litBytes "Parse error: " ++ m
  | .invalidDictionary m => litBytes "Dictionary error: " ++ m
  | .unsupportedPattern m => litBytes "Unsupported pattern: " ++ m

/-- `fmt::Display` of `core::num::ParseIntError`. -/
def displayParseIntErr : ParseIntErr → List Nat
  | .empty => litBytes "cannot parse integer from empty string"
  | .invalidDigit => litBytes "invalid digit found in string"
  | .posOverflow => litBytes "number too large to fit in target type"

/-- `fmt::Display` of `std::str::Utf8Error`. -/
def displayUtf8Error (e : Nat × Option Nat) : List Nat :=
  match e.2 with
  | some n =>
    litBytes "invalid utf-8 sequence of " ++ natToDec n ++
      litBytes " bytes from index " ++ natToDec e.1
  | none => litBytes "incomplete utf-8 byte sequence from index " ++ natToDec e.1

/-- `TokenizedReadName` (`dictionary.rs`). -/
structure TokenizedReadName where
  instrumentId : Nat
  runId : Nat
  flowcellId : Nat
  lane : Nat
  tile : Nat
  xCoord : Nat
  yCoord : Nat
  umiId : Option Nat
  readNum : Nat
  flags : Nat
  indexId : Option Nat
deriving DecidableEq

/-- `parse_flags_from_string`: `"Y" → 1`, `"N" → 0`, else decimal u8 with
parse failure defaulting to 0. -/
def parseFlagsFromString (s : List Nat) : Nat :=
  if s = [89] then 1
  else if s = [78] then 0
  else
    match parseUint u8Max s with
    | .ok v => v
    | .error _ => 0

/-- `hash_string`: `h ← h.wrapping_mul(31).wrapping_add(byte)` over u32.
(`(h*31 % 2^32 + b) % 2^32 = (h*31 + b) % 2^32` since `b < 2^32`.) -/
def hashString (s : List Nat) : Nat :=
  s.foldl (fun hash byte => (hash * 31 + byte) % 2 ^ 32) 0

/-- Delimiter set of the modern parser: ':' or ' '.  (The source splits the
validated `&str` by chars; both delimiters are ASCII, so for valid UTF-8 the
byte-level split below coincides.) -/
def isModernDelim (b : Nat) : Bool := b == 58 || b == 32

/-- `parse_modern_illumina`.  The `&mut self` dictionary is threaded and is
returned mutated even on failure (the instrument, and possibly the flowcell,
are interned before a later field fails to parse). -/
def parseModernIllumina (d : ReadNameDictionary) (nameStr : List Nat) :
    Except TokenizationError TokenizedReadName × ReadNameDictionary :=
  let parts := splitOnDelims isModernDelim nameStr
  if parts.length < 7 then
    (.error (.invalidFormat (litBytes "Not modern Illumina format")), d)
  else
    let r1 := addInstrument d (parts.getD 0 [])
    match parseUint u32Max (parts.getD 1 []) with
    | .error e => (.error (.parseError (displayParseIntErr e)), r1.2)
    | .ok runId =>
      let r2 := addFlowcell r1.2 (parts.getD 2 [])
      match parseUint u8Max (parts.getD 3 []) with
      | .error e => (.error (.parseError (displayParseIntErr e)), r2.2)
      | .ok lane =>
        match parseUint u16Max (parts.getD 4 []) with
        | .error e => (.error (.parseError (displayParseIntErr e)), r2.2)
        | .ok tile =>
          match parseUint u32Max (parts.getD 5 []) with
          | .error e => (.error (.parseError (displayParseIntErr e)), r2.2)
          | .ok xCoord =>
            match parseUint u32Max (parts.getD 6 []) with
            | .error e => (.error (.parseError (displayParseIntErr e)), r2.2)
            | .ok yCoord =>
              let umiR :=
                if 7 < parts.length ∧ parts.getD 7 [] ≠ [] then
                  let r := addUmi r2.2 (parts.getD 7 [])
                  (some r.1, r.2)
                else (none, r2.2)
              let readNum :=
                if 8 < parts.length then
                  match parseUint u8Max (parts.getD 8 []) with
                  | .ok v => v
                  | .error _ => 1
                else 1
              let flags :=
                if 9 < parts.length then parseFlagsFromString (parts.getD 9 []) else 0
              let idxR :=
                if 10 < parts.length ∧ parts.getD 10 [] ≠ [] then
                  let r := addIndex umiR.2 (parts.getD 10 [])
                  (some r.1, r.2)
                else (none, umiR.2)
              (.ok { instrumentId := r1.1, runId := runId, flowcellId := r2.1,
                     lane := lane, tile := tile, xCoord := xCoord, yCoord := yCoord,
                     umiId := umiR.1, readNum := readNum, flags := flags,
                     indexId := idxR.1 }, idxR.2)

/-- `parse_legacy_illumina`. -/
def parseLegacyIllumina (d : ReadNameDictionary) (nameStr : List Nat) :
    Except TokenizationError TokenizedReadName × ReadNameDictionary :=
  let mainParts := splitBytes nameStr 35
  let coordinatePart := mainParts.getD 0 []
  let parts := splitBytes coordinatePart 58
  if parts.length ≠ 5 then
    (.error (.invalidFormat (litBytes "Legacy format should have 5 colon-separated parts, got "
        ++ natToDec parts.length)), d)
  else
    let instrumentRun := parts.getD 0 []
    let r1 := addInstrument d instrumentRun
    let runId := hashString instrumentRun
    match parseUint u8Max (parts.getD 1 []) with
    | .error e => (.error (.parseError (displayParseIntErr e)), r1.2)
    | .ok lane =>
      match parseUint u16Max (parts.getD 2 []) with
      | .error e => (.error (.parseError (displayParseIntErr e)), r1.2)
      | .ok tile =>
        match parseUint u32Max (parts.getD 3 []) with
        | .error e => (.error (.parseError (displayParseIntErr e)), r1.2)
        | .ok xCoord =>
          match parseUint u32Max (parts.getD 4 []) with
          | .error e => (.error (.parseError (displayParseIntErr e)), r1.2)
          | .ok yCoord =>
            let ids :=
              if 1 < mainParts.length then
                let suffix := mainParts.getD 1 []
                match suffix.findIdx? (fun b => b == 124) with
                | some umiPos =>
                  let indexPart := suffix.take umiPos
                  let umiPart := suffix.drop (umiPos + 1)
                  let ir :=
                    if indexPart ≠ [] then
                      let r := addIndex r1.2 indexPart
                      (some r.1, r.2)
                    else (none, r1.2)
                  let ur :=
                    if umiPart ≠ [] then
                      let r := addUmi ir.2 umiPart
                      (some r.1, r.2)
                    else (none, ir.2)
                  (ir.1, ur.1, ur.2)
                | none =>
                  let ir :=
                    if suffix ≠ [] then
                      let r := addIndex r1.2 suffix
                      (some r.1, r.2)
                    else (none, r1.2)
                  (ir.1, none, ir.2)
              else (none, none, r1.2)
            (.ok { instrumentId := r1.1, runId := runId, flowcellId := 0,
                   lane := lane, tile := tile, xCoord := xCoord, yCoord := yCoord,
                   umiId := ids.2.1, readNum := 1, flags := 0,
                   indexId := ids.1 }, ids.2.2)

/-- `IlluminaTokenizer` state (dictionary plus the two stats counters). -/
structure IlluminaTokenizer where
  dictionary : ReadNameDictionary
  totalReadsProcessed : Nat
  successfullyTokenized : Nat
deriving DecidableEq

def IlluminaTokenizer.new : IlluminaTokenizer := ⟨ReadNameDictionary.new, 0, 0⟩

/-- `tokenize_single`: UTF-8 validation, then the modern parser, then the
legacy parser; dictionary mutations of a failed parser survive into the next
attempt, as in the source. -/
def tokenizeSingle (d : ReadNameDictionary) (readName : List Nat) :
    Except TokenizationError TokenizedReadName × ReadNameDictionary :=
  match utf8ValidateAux 0 readName with
  | .error e => (.error (.parseError (displayUtf8Error e)), d)
  | .ok _ =>
    match parseModernIllumina d readName with
    | (.ok tokenized, d') => (.ok tokenized, d')
    | (.error _, d') =>
      match parseLegacyIllumina d' readName with
      | (.ok tokenized, d'') => (.ok tokenized, d'')
      | (.error _, d'') =>
        (.error (.invalidFormat (litBytes "Unrecognized Illumina format: " ++ readName)), d'')

/-- The batch-level error text:
`format!("Failed to tokenize read {} ({}): {}", index, lossy(name), e)`. -/
def fmtBatchError (index : Nat) (name : List Nat) (e : TokenizationError) : List Nat :=
  litBytes "Failed to tokenize read " ++ natToDec index ++ litBytes " (" ++
    utf8Lossy name ++ litBytes "): " ++ displayTokenizationError e

/-- `tokenize_batch` loop from position `index`.  On failure the source leaves
the mutated tokenizer behind in `&mut self`; no claim observes that state, so
the error branch carries only the error. -/
def tokenizeBatchAux (tz : IlluminaTokenizer) (index : Nat) :
    List (List Nat) → Except TokenizationError (List TokenizedReadName × IlluminaTokenizer)
  | [] => .ok ([], tz)
  | name :: rest =>
    let tz1 := { tz with totalReadsProcessed := tz.totalReadsProcessed + 1 }
    match tokenizeSingle tz1.dictionary name with
    | (.ok tokenized, d') =>
      let tz2 := { tz1 with
                   dictionary := d'
                   successfullyTokenized := tz1.successfullyTokenized + 1 }
      match tokenizeBatchAux tz2 (index + 1) rest with
      | .ok r => .ok (tokenized :: r.1, r.2)
      | .error e => .error e
    | (.error e, _) => .error (.parseError (fmtBatchError index name e))

/-- `tokenize_batch`. -/
def tokenizeBatch (tz : IlluminaTokenizer) (readNames : List (List Nat)) :
    Except TokenizationError (List TokenizedReadName × IlluminaTokenizer) :=
  tokenizeBatchAux tz 0 readNames

/-- `detokenize`: legacy shape when `flowcell_id == 0`, else modern shape. -/
def detokenize (d : ReadNameDictionary) (t : TokenizedReadName) :
    Except TokenizationError (List Nat) :=
  match getInstrument d t.instrumentId with
  | none =>
    .error (.invalidFormat (litBytes "Instrument ID " ++ natToDec t.instrumentId ++
      litBytes " not found"))
  | some instrument =>
    if t.flowcellId = 0 then
      let base := instrument ++ [58] ++ natToDec t.lane ++ [58] ++ natToDec t.tile ++
                  [58] ++ natToDec t.xCoord ++ [58] ++ natToDec t.yCoord
      let suffix :=
        if t.indexId.isSome || t.umiId.isSome then
          [35] ++
          (match t.indexId with
           | some i => (getIndex d i).getD []
           | none => []) ++
          (match t.umiId with
           | some u =>
             match getUmi d u with
             | some umi => [124] ++ umi
             | none => []
           | none => [])
        else []
      .ok (base ++ suffix)
    else
      let fcPart :=
        match getFlowcell d t.flowcellId with
        | some fc => [58] ++ fc
        | none => []
      let umiPart :=
        match t.umiId with
        | some u =>
          match getUmi d u with
          | some umi => [58] ++ umi
          | none => []
        | none => []
      let idxPart :=
        match t.indexId with
        | some i =>
          match getIndex d i with
          | some ix => [58] ++ ix
          | none => []
        | none => []
      .ok (instrument ++ [58] ++ natToDec t.runId ++ fcPart ++
           [58] ++ natToDec t.lane ++ [58] ++ natToDec t.tile ++
           [58] ++ natToDec t.xCoord ++ [58] ++ natToDec t.yCoord ++
           umiPart ++ [58] ++ natToDec t.readNum ++
           [58, if t.flags % 2 = 1 then 89 else 78] ++ idxPart)

/-- Success of the modern parser depends only on the name, not on the
dictionary: this predicate mirrors its pure checks. -/
def modernOk (nameStr : List Nat) : Bool :=
  let parts := splitOnDelims isModernDelim nameStr
  7 ≤ parts.length &&
  (parseUint u32Max (parts.getD 1 [])).isOk &&
  (parseUint u8Max (parts.getD 3 [])).isOk &&
  (parseUint u16Max (parts.getD 4 [])).isOk &&
  (parseUint u32Max (parts.getD 5 [])).isOk &&
  (parseUint u32Max (parts.getD 6 [])).isOk

/-- Pure success predicate of the legacy parser. -/
def legacyOk (nameStr : List Nat) : Bool :=
  let parts := splitBytes ((splitBytes nameStr 35).getD 0 []) 58
  parts.length == 5 &&
  (parseUint u8Max (parts.getD 1 [])).isOk &&
  (parseUint u16Max (parts.getD 2 [])).isOk &&
  (parseUint u32Max (parts.getD 3 [])).isOk &&
  (parseUint u32Max (parts.getD 4 [])).isOk

/-- Pure success predicate of `tokenize_single`. -/
def parseOk (name : List Nat) : Bool :=
  (utf8ValidateAux 0 name).isOk && (modernOk name || legacyOk name)

/-- Tokenize one name and detokenize the result with the resulting
dictionary (`detokenize(tokenize(name))`). -/
def roundTrip (d : ReadNameDictionary) (name : List Nat) : Option (List Nat) :=
  match tokenizeSingle d name with
  | (.ok tok, d') =>
    match detokenize d' tok with
    | .ok s => some s
    | .error _ => none
  | (.error _, _) => none

/-! ## Concrete tables and inputs used by the analysis -/

/-- The specification's own modern-format scenario name. -/
def modernName1 : List Nat := litBytes "INSTRUMENT:123:FLOWCELL:1:1234:5678:9012"

/-- 254 distinct singleton entries: a u8 table at capacity − 1. -/
def table254 : List (List Nat) := (List.range 254).map (fun i => [i])

/-- A dictionary whose instrument table holds 254 entries. -/
def dict254 : ReadNameDictionary := ⟨table254, [], [], []⟩

/-- A dictionary with every table at its capacity (entries need not be
distinct for the saturation path: the unseen-lookup happens first). -/
def dictFull : ReadNameDictionary :=
  ⟨List.replicate 255 [0], List.replicate 255 [0],
   List.replicate 65535 [0], List.replicate 255 [0]⟩

/-! # Helper lemmas: splitting and joining -/

theorem splitOnDelims_ne_nil (p : Nat → Bool) (l : List Nat) :
    splitOnDelims p l ≠ [] := by
  cases l with
  | nil => simp [splitOnDelims]
  | cons b rest =>
    simp only [splitOnDelims]
    split
    · simp
    · split <;> simp

theorem splitOnDelims_clean_append (p : Nat → Bool) (part l : List Nat)
    (h : ∀ b ∈ part, p b = false) :
    splitOnDelims p (part ++ l) =
      (part ++ (splitOnDelims p l).headD []) :: (splitOnDelims p l).tail := by
  induction part with
  | nil =>
    cases hE : splitOnDelims p l with
    | nil => exact absurd hE (splitOnDelims_ne_nil p l)
    | cons a t => simp [hE]
  | cons b bs ih =>
    have hb : p b = false := h b (by simp)
    have ih' := ih (fun x hx => h x (by simp [hx]))
    simp only [List.cons_append, splitOnDelims, hb, Bool.false_eq_true, if_false]
    rw [show bs.append l = bs ++ l from rfl, ih']

theorem splitOnDelims_no_delim (p : Nat → Bool) (part : List Nat)
    (h : ∀ b ∈ part, p b = false) :
    splitOnDelims p part = [part] := by
  have := splitOnDelims_clean_append p part [] h
  simpa [splitOnDelims] using this

theorem splitOnDelims_joinColon (p : Nat → Bool) (hcolon : p 58 = true) :
    ∀ parts : List (List Nat), parts ≠ [] →
      (∀ q ∈ parts, ∀ b ∈ q, p b = false) →
      splitOnDelims p (joinColon parts) = parts := by
  intro parts
  induction parts with
  | nil => intro h; exact absurd rfl h
  | cons q rest ih =>
    intro _ hclean
    cases rest with
    | nil =>
      simpa [joinColon] using
        splitOnDelims_no_delim p q (hclean q (by simp))
    | cons q2 rest2 =>
      have hq : ∀ b ∈ q, p b = false := hclean q (by simp)
      have hrest : splitOnDelims p (joinColon (q2 :: rest2)) = q2 :: rest2 :=
        ih (by simp) (fun r hr b hb => hclean r (by simp [hr]) b hb)
      have : joinColon (q :: q2 :: rest2) = q ++ 58 :: joinColon (q2 :: rest2) := rfl
      rw [this, splitOnDelims_clean_append p q _ hq]
      simp only [splitOnDelims, hcolon, if_true, hrest]
      simp

/-! # Helper lemmas: decimal rendering and parsing -/

theorem natToDecAux_digit {fuel n d : Nat} (hd : d ∈ natToDecAux fuel n) :
    48 ≤ d ∧ d ≤ 57 := by
  induction fuel generalizing n with
  | zero => simp [natToDecAux] at hd
  | succ fuel ih =>
    simp only [natToDecAux] at hd
    split at hd
    · simp at hd
    · rcases List.mem_cons.mp hd with h | h
      · subst h; omega
      · exact ih h

theorem natToDec_digit {n d : Nat} (hd : d ∈ natToDec n) : 48 ≤ d ∧ d ≤ 57 := by
  unfold natToDec at hd
  split at hd
  · simp at hd; omega
  · exact natToDecAux_digit (List.mem_reverse.mp hd)

theorem natToDec_ne_nil (n : Nat) : natToDec n ≠ [] := by
  unfold natToDec
  split
  · simp
  · simp only [ne_eq, List.reverse_eq_nil_iff]
    unfold natToDecAux
    split
    · omega
    · simp_all

theorem natToDecAux_foldl (fuel : Nat) :
    ∀ n acc, n ≤ fuel →
      ((natToDecAux fuel n).reverse).foldl (fun a d => a * 10 + (d - 48)) acc
        = acc * 10 ^ (natToDecAux fuel n).length + n := by
  induction fuel with
  | zero => intro n acc h; interval_cases n; simp [natToDecAux]
  | succ fuel ih =>
    intro n acc h
    by_cases hn : n = 0
    · subst hn; simp [natToDecAux]
    · simp only [natToDecAux, if_neg hn, List.reverse_cons, List.foldl_append,
        List.length_cons]
      rw [ih (n / 10) acc (by omega)]
      simp only [List.foldl_cons, List.foldl_nil]
      have h48 : n % 10 + 48 - 48 = n % 10 := by omega
      rw [h48, pow_succ, ← mul_assoc]
      have h2 : (acc * 10 ^ (natToDecAux fuel (n / 10)).length + n / 10) * 10
          = acc * 10 ^ (natToDecAux fuel (n / 10)).length * 10 + n / 10 * 10 := by ring
      rw [h2]
      omega

theorem foldl_natToDec (n : Nat) :
    (natToDec n).foldl (fun a d => a * 10 + (d - 48)) 0 = n := by
  unfold natToDec
  split
  · simp_all
  · rw [natToDecAux_foldl (n + 1) n 0 (by omega)]
    simp

theorem foldl_digits_ge (L : List Nat) :
    ∀ acc, acc ≤ L.foldl (fun a d => a * 10 + (d - 48)) acc := by
  induction L with
  | nil => simp
  | cons d rest ih =>
    intro acc
    calc acc ≤ acc * 10 + (d - 48) := by omega
    _ ≤ _ := ih _

theorem parseUintDigits_ok (maxVal : Nat) (L : List Nat)
    (hdig : ∀ d ∈ L, isAsciiDigit d = true) :
    ∀ acc, L.foldl (fun a d => a * 10 + (d - 48)) acc ≤ maxVal →
      parseUintDigits maxVal acc L = .ok (L.foldl (fun a d => a * 10 + (d - 48)) acc) := by
  induction L with
  | nil => intro acc _; simp [parseUintDigits]
  | cons d rest ih =>
    intro acc hle
    have hd : isAsciiDigit d = true := hdig d (by simp)
    have hstep : acc * 10 + (d - 48) ≤ maxVal :=
      le_trans (foldl_digits_ge rest _) (by simpa using hle)
    simp only [parseUintDigits, hd, if_true, hstep, List.foldl_cons] at *
    exact ih (fun x hx => hdig x (by simp [hx])) _ (by simpa using hle)

theorem parseUint_natToDec (maxVal n : Nat) (h : n ≤ maxVal) :
    parseUint maxVal (natToDec n) = .ok n := by
  have hne := natToDec_ne_nil n
  have hdig : ∀ d ∈ natToDec n, isAsciiDigit d = true := by
    intro d hd
    have := natToDec_digit hd
    simp [isAsciiDigit]; omega
  have hfold := foldl_natToDec n
  cases hD : natToDec n with
  | nil => exact absurd hD hne
  | cons d0 rest =>
    have h0 : d0 ∈ natToDec n := by rw [hD]; simp
    have h0' := natToDec_digit h0
    have hd0 : ¬ d0 = 43 := by omega
    rw [hD] at hfold hdig
    simp only [parseUint, hd0, if_false]
    rw [parseUintDigits_ok maxVal (d0 :: rest) hdig 0 (by rw [hfold]; exact h), hfold]

/-! # Helper lemmas: dictionary tables -/

theorem lookupTable_get {t : List (List Nat)} {x : List Nat} {i : Nat}
    (h : lookupTable t x = some i) : t.get? i = some x := by
  induction t generalizing i with
  | nil => simp [lookupTable] at h
  | cons y rest ih =>
    rw [lookupTable] at h
    by_cases hy : y = x
    · rw [if_pos hy] at h
      cases h
      simp [hy]
    · rw [if_neg hy] at h
      rcases Option.map_eq_some'.mp h with ⟨j, hj, hji⟩
      subst hji
      simpa using ih hj

theorem lookupTable_append_self {t : List (List Nat)} {x : List Nat}
    (h : lookupTable t x = none) : lookupTable (t ++ [x]) x = some t.length := by
  induction t with
  | nil => simp [lookupTable]
  | cons y rest ih =>
    rw [lookupTable] at h
    by_cases hy : y = x
    · simp [hy] at h
    · rw [if_neg hy, Option.map_eq_none'] at h
      rw [List.cons_append, lookupTable, if_neg hy, ih h]
      simp

theorem tableAdd_get {cap : Nat} {t : List (List Nat)} (x : List Nat)
    (h : t.length < cap) :
    (tableAdd cap t x).2[(tableAdd cap t x).1]? = some x := by
  unfold tableAdd
  cases hL : lookupTable t x with
  | some i =>
    have := lookupTable_get hL
    rw [List.get?_eq_getElem?] at this
    simpa using this
  | none =>
    simp only
    rw [if_neg (by omega)]
    simp [List.getElem?_concat_length]

theorem tableAdd_stable {cap : Nat} {t : List (List Nat)} {i : Nat} {y : List Nat}
    (x : List Nat) (h : t.get? i = some y) :
    (tableAdd cap t x).2.get? i = some y := by
  unfold tableAdd
  cases hL : lookupTable t x with
  | some j => simpa using h
  | none =>
    simp only
    split
    · simpa using h
    · obtain ⟨hlt, -⟩ := List.get?_eq_some.mp h
      rw [List.get?_eq_getElem?] at h ⊢
      simp only
      rwa [List.getElem?_append_left hlt]

theorem tableAdd_idem {cap : Nat} {t : List (List Nat)} (x : List Nat)
    (h : t.length < cap) :
    tableAdd cap (tableAdd cap t x).2 x = tableAdd cap t x := by
  cases hL : lookupTable t x with
  | some i =>
    have h1 : tableAdd cap t x = (i, t) := by unfold tableAdd; rw [hL]
    rw [h1, h1]
  | none =>
    have h1 : tableAdd cap t x = (t.length, t ++ [x]) := by
      unfold tableAdd
      rw [hL, if_neg (by omega)]
    rw [h1]
    unfold tableAdd
    rw [lookupTable_append_self hL]

theorem tableAdd_saturated {cap : Nat} {t : List (List Nat)} (x : List Nat)
    (hfull : cap ≤ t.length) (habs : lookupTable t x = none) :
    tableAdd cap t x = (cap - 1, t) := by
  unfold tableAdd
  simp [habs, hfull]

theorem lookupTable_replicate_ne (n : Nat) (x y : List Nat)
    (h : y ≠ x) : lookupTable (List.replicate n y) x = none := by
  induction n with
  | zero => simp [lookupTable]
  | succ m ih =>
    rw [List.replicate_succ, lookupTable, if_neg h, ih]
    rfl

/-! # Claims C5 and C8: dictionary saturation and round-trip -/

set_option maxRecDepth 4000 in
/-- C5 counterexample: with 254 interned instruments (claimed "capacity minus
1"), `add_instrument` of an unseen string returns 254 as a fresh real id and
appends a 255th entry — it does not behave as a saturation sink. -/
theorem dict_saturation_at_254_counterexample :
    (addInstrument dict254 [255]).1 = 254 ∧
    (addInstrument dict254 [255]).2.instruments.length = 255 := by decide

/-- C5 (amended): saturation fires once a u8-indexed table holds 255 entries
(full capacity): `add` of an unseen string returns sink 254 and does not
modify the dictionary; the u16 UMI table saturates at 65535 entries with sink
65534. -/
theorem dict_saturation_at_capacity (d : ReadNameDictionary) (x : List Nat) :
    (255 ≤ d.instruments.length → lookupTable d.instruments x = none →
        addInstrument d x = (254, d)) ∧
    (255 ≤ d.flowcells.length → lookupTable d.flowcells x = none →
        addFlowcell d x = (254, d)) ∧
    (255 ≤ d.indices.length → lookupTable d.indices x = none →
        addIndex d x = (254, d)) ∧
    (65535 ≤ d.umis.length → lookupTable d.umis x = none →
        addUmi d x = (65534, d)) := by
  refine ⟨fun hf ha => ?_, fun hf ha => ?_, fun hf ha => ?_, fun hf ha => ?_⟩ <;>
    simp [addInstrument, addFlowcell, addIndex, addUmi, tableAdd_saturated x hf ha]

/-- C5 amended, witnessed on a dictionary with every table at capacity. -/
theorem dict_saturation_at_capacity_witness :
    addInstrument dictFull [9] = (254, dictFull) ∧
    addUmi dictFull [9] = (65534, dictFull) := by
  have h := dict_saturation_at_capacity dictFull [9]
  have hne : ([0] : List Nat) ≠ [9] := by decide
  have hi : (255 : Nat) ≤ dictFull.instruments.length := by
    show 255 ≤ (List.replicate 255 ([0] : List Nat)).length
    rw [List.length_replicate]
  have hu : (65535 : Nat) ≤ dictFull.umis.length := by
    show 65535 ≤ (List.replicate 65535 ([0] : List Nat)).length
    rw [List.length_replicate]
  exact ⟨h.1 hi (lookupTable_replicate_ne 255 [9] [0] hne),
         h.2.2.2 hu (lookupTable_replicate_ne 65535 [9] [0] hne)⟩

/-- C8: below capacity, `add` then `get` returns exactly the interned bytes,
and a second `add` of the same bytes returns the same id without changing the
dictionary — for each of the four tables. -/
theorem dict_add_get_roundtrip (d : ReadNameDictionary) (x : List Nat) :
    (d.instruments.length < 255 →
      getInstrument (addInstrument d x).2 (addInstrument d x).1 = some x ∧
      addInstrument (addInstrument d x).2 x = addInstrument d x) ∧
    (d.flowcells.length < 255 →
      getFlowcell (addFlowcell d x).2 (addFlowcell d x).1 = some x ∧
      addFlowcell (addFlowcell d x).2 x = addFlowcell d x) ∧
    (d.umis.length < 65535 →
      getUmi (addUmi d x).2 (addUmi d x).1 = some x ∧
      addUmi (addUmi d x).2 x = addUmi d x) ∧
    (d.indices.length < 255 →
      getIndex (addIndex d x).2 (addIndex d x).1 = some x ∧
      addIndex (addIndex d x).2 x = addIndex d x) := by
  refine ⟨fun h => ⟨?_, ?_⟩, fun h => ⟨?_, ?_⟩, fun h => ⟨?_, ?_⟩, fun h => ⟨?_, ?_⟩⟩ <;>
    simp [addInstrument, addFlowcell, addUmi, addIndex,
      getInstrument, getFlowcell, getUmi, getIndex,
      tableAdd_get x h, tableAdd_idem x h]

/-- C8 witnessed on the fresh dictionary. -/
theorem dict_add_get_roundtrip_witness :
    getInstrument (addInstrument ReadNameDictionary.new [65]).2
        (addInstrument ReadNameDictionary.new [65]).1 = some [65] ∧
    getUmi (addUmi ReadNameDictionary.new [65]).2
        (addUmi ReadNameDictionary.new [65]).1 = some [65] :=
  ⟨((dict_add_get_roundtrip ReadNameDictionary.new [65]).1 (by decide)).1,
   ((dict_add_get_roundtrip ReadNameDictionary.new [65]).2.2.1 (by decide)).1⟩

/-! # Claims C3 and C9: coordinate encoder -/

/-- C3 (code bug): on a fresh encoder, `encode_coordinates(u32::MAX, u32::MAX,
u16::MAX)` produces `x_delta = y_delta = -1` — the Rust cast `x as i32` wraps
`u32::MAX` to `-1` before the subtraction, so only the tile delta is clamped to
`i16::MAX` (32767).  The repository's own test
`test_coordinate_overflow_protection` asserts `i16::MAX` for all three. -/
theorem coordinate_clamp_bug :
    encodeCoordinates CoordinateEncoder.new 4294967295 4294967295 65535
      = (⟨-1, -1, 32767⟩, ⟨4294967295, 4294967295, 65535⟩) := by decide

theorem u32AsI32_small {u : Nat} (h : u ≤ 32767) : u32AsI32 u = (u : Int) := by
  unfold u32AsI32
  rw [if_pos]
  exact_mod_cast by omega

theorem wrapI32_small {v : Int} (h1 : -(2 ^ 31) ≤ v) (h2 : v < 2 ^ 31) :
    wrapI32 v = v := by
  unfold wrapI32
  omega

theorem clampI16_small {v : Int} (h1 : -32768 ≤ v) (h2 : v ≤ 32767) :
    clampI16 v = v := by
  unfold clampI16
  rw [max_def, min_def]
  split_ifs <;> omega

/-- One encode/decode step restores an in-range x (or y) coordinate. -/
theorem roundStep (u v : Nat) (hu : u ≤ 32767) (hv : v ≤ 32767) :
    i32AsU32 (max (wrapI32 (u32AsI32 u + clampI16 (wrapI32 (u32AsI32 v - u32AsI32 u)))) 0)
      = v := by
  rw [u32AsI32_small hu, u32AsI32_small hv]
  have w1 : wrapI32 ((v : Int) - (u : Int)) = (v : Int) - (u : Int) :=
    wrapI32_small (by omega) (by omega)
  have c1 : clampI16 ((v : Int) - (u : Int)) = (v : Int) - (u : Int) :=
    clampI16_small (by omega) (by omega)
  have h5 : (u : Int) + ((v : Int) - (u : Int)) = (v : Int) := by ring
  rw [w1, c1, h5]
  have w2 : wrapI32 (v : Int) = (v : Int) := wrapI32_small (by omega) (by omega)
  have h7 : max (v : Int) 0 = (v : Int) := by rw [max_def]; split_ifs <;> omega
  rw [w2, h7]
  unfold i32AsU32
  omega

/-- One encode/decode step restores an in-range tile. -/
theorem roundStepTile (u v : Nat) (hu : u ≤ 32767) (hv : v ≤ 32767) :
    i32AsU16 (max (wrapI32 ((u : Int) + clampI16 (wrapI32 ((v : Int) - (u : Int))))) 0)
      = v := by
  have w1 : wrapI32 ((v : Int) - (u : Int)) = (v : Int) - (u : Int) :=
    wrapI32_small (by omega) (by omega)
  have c1 : clampI16 ((v : Int) - (u : Int)) = (v : Int) - (u : Int) :=
    clampI16_small (by omega) (by omega)
  have h5 : (u : Int) + ((v : Int) - (u : Int)) = (v : Int) := by ring
  rw [w1, c1, h5]
  have w2 : wrapI32 (v : Int) = (v : Int) := wrapI32_small (by omega) (by omega)
  have h7 : max (v : Int) 0 = (v : Int) := by rw [max_def]; split_ifs <;> omega
  rw [w2, h7]
  unfold i32AsU16
  omega

theorem encode_decode_step (a b c x y t : Nat)
    (ha : a ≤ 32767) (hb : b ≤ 32767) (hc : c ≤ 32767)
    (hx : x ≤ 32767) (hy : y ≤ 32767) (ht : t ≤ 32767) :
    decodeCoordinates ⟨a, b, c⟩ (encodeCoordinates ⟨a, b, c⟩ x y t).1
      = ((x, y, t), ⟨x, y, t⟩) := by
  have hx' := roundStep a x ha hx
  have hy' := roundStep b y hb hy
  have ht' := roundStepTile c t hc ht
  simp only [encodeCoordinates, decodeCoordinates] at *
  rw [hx', hy', ht']

theorem coordinate_roundtrip_aux (coords : List (Nat × Nat × Nat)) :
    ∀ st : CoordinateEncoder,
      st.lastX ≤ 32767 → st.lastY ≤ 32767 → st.lastTile ≤ 32767 →
      (∀ c ∈ coords, c.1 ≤ 32767 ∧ c.2.1 ≤ 32767 ∧ c.2.2 ≤ 32767) →
      decodeList st (encodeList st coords).1 = (coords, (encodeList st coords).2) := by
  induction coords with
  | nil => intro st _ _ _ _; rfl
  | cons c rest ih =>
    rintro ⟨a, b, cc⟩ ha hb hcc hmem
    obtain ⟨x, y, t⟩ := c
    have hc := hmem (x, y, t) (by simp)
    have hstep := encode_decode_step a b cc x y t ha hb hcc hc.1 hc.2.1 hc.2.2
    have hrest := ih ⟨x, y, t⟩ hc.1 hc.2.1 hc.2.2
      (fun q hq => hmem q (by simp [hq]))
    simp only [encodeList, decodeList]
    simp only [encodeCoordinates] at hstep ⊢
    rw [hstep] at *
    simp only [decodeList, encodeList] at hrest ⊢
    rw [hrest]

/-- C9: a sequence of coordinates with every component in `[0, i16::MAX]`
encodes with a fresh `CoordinateEncoder` and decodes with a fresh encoder back
to exactly the original sequence. -/
theorem coordinate_encoder_roundtrip (coords : List (Nat × Nat × Nat))
    (h : ∀ c ∈ coords, c.1 ≤ 32767 ∧ c.2.1 ≤ 32767 ∧ c.2.2 ≤ 32767) :
    (decodeList CoordinateEncoder.new (encodeList CoordinateEncoder.new coords).1).1
      = coords := by
  rw [coordinate_roundtrip_aux coords CoordinateEncoder.new
    (by decide) (by decide) (by decide) h]

/-- C9 witnessed on the repository test's in-range coordinates. -/
theorem coordinate_encoder_roundtrip_witness :
    (decodeList CoordinateEncoder.new
      (encodeList CoordinateEncoder.new
        [(1000, 2000, 1101), (1001, 2000, 1101), (1002, 2001, 1101), (1000, 2010, 1102)]).1).1
      = [(1000, 2000, 1101), (1001, 2000, 1101), (1002, 2001, 1101), (1000, 2010, 1102)] :=
  coordinate_encoder_roundtrip _ (by decide)

/-! # Claim C4: analyzer -/

/-- C4: `should_tokenize` is false for batches of fewer than 10 names; a batch
of at least 10 names in which every name has at least 6 colons and at least 7
colon-separated parts is classified `Illumina` and approved for tokenization. -/
theorem analyzer_illumina_batch (readNames : List (List Nat)) :
    (readNames.length < 10 → shouldTokenize readNames = false) ∧
    (10 ≤ readNames.length →
      (∀ n ∈ readNames, 6 ≤ countByte n 58 ∧ 7 ≤ (splitBytes n 58).length) →
      detectPattern readNames = .illumina ∧ shouldTokenize readNames = true) := by
  constructor
  · intro hlen
    unfold shouldTokenize
    rw [if_pos hlen]
  · intro hlen hall
    have hlen0 : 0 < readNames.length := by omega
    have hempty : readNames.isEmpty = false := by
      cases readNames with
      | nil => simp at hlen0
      | cons _ _ => rfl
    have hfilter : readNames.filter isIlluminaPattern = readNames :=
      List.filter_eq_self.mpr (fun a ha => by
        have h := hall a ha
        simp only [isIlluminaPattern, Bool.and_eq_true, decide_eq_true_eq]
        exact h)
    have hcast : ((readNames.length : ℚ)) ≠ 0 :=
      Nat.cast_ne_zero.mpr (by omega)
    have hratio : (4 : ℚ) / 5 <
        ((readNames.filter isIlluminaPattern).length : ℚ) / (readNames.length : ℚ) := by
      rw [hfilter, div_self hcast]
      norm_num
    have hdet : detectPattern readNames = .illumina := by
      unfold detectPattern
      rw [if_neg (by simp [hempty]), if_pos hratio]
    refine ⟨hdet, ?_⟩
    unfold shouldTokenize
    rw [if_neg (by omega), hdet]

/-- C4 witnessed on ten copies of a 7-part colon-separated name. -/
theorem analyzer_illumina_batch_witness :
    detectPattern (List.replicate 10 [97, 58, 98, 58, 99, 58, 100, 58, 101, 58, 102, 58, 103])
        = .illumina ∧
    shouldTokenize (List.replicate 10 [97, 58, 98, 58, 99, 58, 100, 58, 101, 58, 102, 58, 103])
        = true ∧
    shouldTokenize (List.replicate 9 [97, 58, 98, 58, 99, 58, 100, 58, 101, 58, 102, 58, 103])
        = false := by
  have h10 := (analyzer_illumina_batch
    (List.replicate 10 [97, 58, 98, 58, 99, 58, 100, 58, 101, 58, 102, 58, 103])).2
    (by decide) (by decide)
  have h9 := (analyzer_illumina_batch
    (List.replicate 9 [97, 58, 98, 58, 99, 58, 100, 58, 101, 58, 102, 58, 103])).1
    (by decide)
  exact ⟨h10.1, h10.2, h9⟩

/-! # Claim C7: RLE benefit -/

/-- The scan of `calculate_rle_benefit` computes the filtered run statistics of
the remaining input. -/
theorem rleBenefitLoop_spec (l : List Nat) :
    ∀ prev cur runs total,
      rleBenefitLoop prev cur runs total l
        = (runs + ((runLengthsAux prev cur l).filter (fun r => 3 ≤ r)).length,
           total + ((runLengthsAux prev cur l).filter (fun r => 3 ≤ r)).sum) := by
  induction l with
  | nil =>
    intro prev cur runs total
    by_cases h3 : 3 ≤ cur <;>
      simp [rleBenefitLoop, runLengthsAux, h3]
  | cons b rest ih =>
    intro prev cur runs total
    by_cases hb : b = prev
    · have e1 : rleBenefitLoop prev cur runs total (b :: rest)
          = rleBenefitLoop b (cur + 1) runs total rest := by
        simp [rleBenefitLoop, hb]
      have e2 : runLengthsAux prev cur (b :: rest) = runLengthsAux prev (cur + 1) rest := by
        simp [runLengthsAux, hb]
      rw [e1, e2, ← hb]
      exact ih b (cur + 1) runs total
    · have e1 : rleBenefitLoop prev cur runs total (b :: rest)
          = if 3 ≤ cur then rleBenefitLoop b 1 (runs + 1) (total + cur) rest
            else rleBenefitLoop b 1 runs total rest := by
        simp [rleBenefitLoop, hb]
      have e2 : runLengthsAux prev cur (b :: rest) = cur :: runLengthsAux b 1 rest := by
        simp [runLengthsAux, hb]
      rw [e1, e2]
      by_cases h3 : 3 ≤ cur
      · rw [if_pos h3, ih b 1 (runs + 1) (total + cur)]
        simp [List.filter_cons, h3, Prod.mk.injEq]
        omega
      · rw [if_neg h3, ih b 1 runs total]
        simp [List.filter_cons, h3]

/-- C7 counterexample: the run `[0,0,0]` saves one byte by the claimed formula
(`(3 − 2)/3 = 1/3`), but `calculate_rle_benefit` returns 0 for any input
shorter than 10 bytes. -/
theorem rle_benefit_counterexample :
    calculateRleBenefit [0, 0, 0] = 0 ∧ specRleBenefit [0, 0, 0] = 1 / 3 := by
  constructor
  · rfl
  · show ((3 - 2 * 1 : Nat) : ℚ) / (3 : Nat) = 1 / 3
    norm_num

/-- C7 (amended): for inputs of at least 10 bytes, `calculate_rle_benefit`
returns exactly the claimed formula: (sum of lengths of maximal runs of length
≥ 3 minus twice their count) divided by the input length; shorter inputs
short-circuit to 0. -/
theorem rle_benefit_formula (data : List Nat) (h : 10 ≤ data.length) :
    calculateRleBenefit data = specRleBenefit data := by
  cases data with
  | nil => simp at h
  | cons b0 rest =>
    unfold calculateRleBenefit specRleBenefit runLengths
    rw [if_neg (by omega)]
    simp only [rleBenefitLoop_spec, Nat.zero_add]

/-- C7 amended, witnessed on a 10-byte input with one long run. -/
theorem rle_benefit_formula_witness :
    calculateRleBenefit [7, 7, 7, 7, 1, 2, 3, 4, 5, 6]
      = specRleBenefit [7, 7, 7, 7, 1, 2, 3, 4, 5, 6] :=
  rle_benefit_formula _ (by decide)

/-! # Claim C2: compressor finish -/

theorem finishAux_drained (q : List CompressTask) (received sent : Nat)
    (h : received = sent) : finishAux q received sent = [] := by
  cases q with
  | nil => rfl
  | cons t rest => simp [finishAux, h]

theorem finishAux_cons (t : CompressTask) (rest : List CompressTask)
    (received sent : Nat) (hne : received ≠ sent) :
    finishAux (t :: rest) received sent
      = t :: finishAux rest (received + if t.orderingKey.isKey then 1 else 0) sent := by
  simp [finishAux, hne]

theorem finishAux_dummies (dummies q : List CompressTask) (received sent : Nat)
    (hd : ∀ t ∈ dummies, t.orderingKey.isKey = false) (hne : received ≠ sent) :
    finishAux (dummies ++ q) received sent = dummies ++ finishAux q received sent := by
  induction dummies with
  | nil => rfl
  | cons t ds ih =>
    have ht : t.orderingKey.isKey = false := hd t (by simp)
    rw [List.cons_append, finishAux_cons t (ds ++ q) received sent hne, ht]
    simp only [Bool.false_eq_true, if_false, Nat.add_zero, List.cons_append]
    rw [ih (fun u hu => hd u (by simp [hu]))]

theorem finishAux_keys (comps : List CompressTask) :
    ∀ received sent,
      (∀ t ∈ comps, t.orderingKey.isKey = true) → comps.length + received = sent →
      finishAux comps received sent = comps := by
  induction comps with
  | nil =>
    intro received sent _ hc
    exact finishAux_drained [] received sent (by simpa using hc)
  | cons t rest ih =>
    intro received sent hk hc
    have ht : t.orderingKey.isKey = true := hk t (by simp)
    rw [finishAux_cons t rest received sent (by simp at hc; omega), ht]
    simp only [if_true]
    rw [ih (received + 1) sent (fun u hu => hk u (by simp [hu])) (by simp at hc; omega)]

/-- C2 counterexample: one worker, one completed submission, `finish()` called
directly — the construction-time `UnusedBlock` sentinel is at the head of the
FIFO completion queue and is returned in the leftovers vector. -/
theorem compressor_finish_counterexample :
    compressorFinish (submitCompleted (compressorNew 0 1) ⟨.key 0, [1]⟩)
        = [⟨.unusedBlock, []⟩, ⟨.key 0, [1]⟩] ∧
    (⟨OrderingKey.unusedBlock, []⟩ : CompressTask)
        ∈ compressorFinish (submitCompleted (compressorNew 0 1) ⟨.key 0, [1]⟩) := by
  decide

/-- C2 (amended): with all submitted work completed, `finish()` drains the
queue until `received = sent`: it returns all `sent − received` remaining real
completions, preceded by every sentinel still in the queue (sentinels do not
count as progress); the result is sentinel-free only in the already-drained
case `received = sent`, where it is empty. -/
theorem compressor_finish_drains (st : CompressorSt)
    (dummies comps : List CompressTask)
    (hq : st.queue = dummies ++ comps)
    (hd : ∀ t ∈ dummies, t.orderingKey.isKey = false)
    (hc : ∀ t ∈ comps, t.orderingKey.isKey = true)
    (hcount : comps.length + st.received = st.sent) :
    compressorFinish st = if comps.isEmpty then [] else dummies ++ comps := by
  rw [show compressorFinish st = finishAux st.queue st.received st.sent from rfl, hq]
  by_cases hcomps : comps = []
  · subst hcomps
    have hrs : st.received = st.sent := by simpa using hcount
    rw [finishAux_drained _ _ _ hrs]
    simp
  · have hne : st.received ≠ st.sent := by
      have : 0 < comps.length := List.length_pos.mpr hcomps
      omega
    rw [finishAux_dummies _ _ _ _ hd hne, finishAux_keys _ _ _ hc hcount]
    rw [if_neg (by simpa [List.isEmpty_iff] using hcomps)]

/-- C2 amended, witnessed on the counterexample state. -/
theorem compressor_finish_drains_witness :
    compressorFinish (submitCompleted (compressorNew 0 1) ⟨.key 0, [1]⟩)
      = [⟨.unusedBlock, []⟩] ++ [⟨.key 0, [1]⟩] := by
  have h := compressor_finish_drains
    (submitCompleted (compressorNew 0 1) ⟨.key 0, [1]⟩)
    [⟨.unusedBlock, []⟩] [⟨.key 0, [1]⟩]
    (by decide) (by decide) (by decide) (by decide)
  simpa using h

/-! # Helper lemmas: tokenizer -/

theorem utf8ValidateAux_ascii (l : List Nat) :
    ∀ pos, (∀ b ∈ l, b ≤ 127) → utf8ValidateAux pos l = .ok () := by
  induction l with
  | nil => intro pos _; rfl
  | cons b rest ih =>
    intro pos h
    have hb : b ≤ 127 := h b (by simp)
    unfold utf8ValidateAux
    rw [if_pos hb]
    exact ih (pos + 1) (fun x hx => h x (by simp [hx]))

theorem mem_joinColon {b : Nat} :
    ∀ {parts : List (List Nat)}, b ∈ joinColon parts → b = 58 ∨ ∃ q ∈ parts, b ∈ q := by
  intro parts
  induction parts with
  | nil => intro h; simp [joinColon] at h
  | cons q rest ih =>
    intro h
    cases rest with
    | nil =>
      right
      exact ⟨q, by simp, by simpa [joinColon] using h⟩
    | cons q2 rest2 =>
      have : joinColon (q :: q2 :: rest2) = q ++ 58 :: joinColon (q2 :: rest2) := rfl
      rw [this] at h
      rcases List.mem_append.mp h with hq | hrest
      · exact Or.inr ⟨q, by simp, hq⟩
      · rcases List.mem_cons.mp hrest with h58 | hj
        · exact Or.inl h58
        · rcases ih hj with h58 | ⟨r, hr, hbr⟩
          · exact Or.inl h58
          · exact Or.inr ⟨r, by simp [hr], hbr⟩

/-! # Claim C1: modern round-trip -/

/-- C1 counterexample: the specification's own scenario name parses under the
modern grammar on a fresh tokenizer, yet detokenizing its token yields the
legacy shape `INSTRUMENT:1:1234:5678:9012` (12 0 was interned as flowcell 0,
the legacy "absent" sentinel), not the original bytes. -/
theorem modern_roundtrip_counterexample :
    modernOk modernName1 = true ∧
    roundTrip ReadNameDictionary.new modernName1
      = some (litBytes "INSTRUMENT:1:1234:5678:9012") ∧
    roundTrip ReadNameDictionary.new modernName1 ≠ some modernName1 := by decide

theorem isModernDelim_false {b : Nat} (h1 : b ≠ 58) (h2 : b ≠ 32) :
    isModernDelim b = false := by
  simp [isModernDelim]
  omega

/-- C1 (amended): the modern round-trip holds for read names of the full
11-part, all-colon shape `instrument:run:flowcell:lane:tile:x:y:umi:read_num:
flag:index` whose string components are ASCII and free of ':' and ' ' (UMI and
index nonempty), whose six numeric fields are canonical decimal renderings
within their types, whose flag is `Y` or `N`, tokenized on a dictionary that is
below capacity in every table and does not resolve the flowcell to id 0 (the
legacy-format sentinel). -/
theorem modern_roundtrip (d : ReadNameDictionary)
    (instr fc umi idx : List Nat) (run lane tile x y rn fb : Nat)
    (hinstr : ∀ b ∈ instr, b < 128 ∧ b ≠ 58 ∧ b ≠ 32)
    (hfc : ∀ b ∈ fc, b < 128 ∧ b ≠ 58 ∧ b ≠ 32)
    (humi : ∀ b ∈ umi, b < 128 ∧ b ≠ 58 ∧ b ≠ 32) (humi0 : umi ≠ [])
    (hidx : ∀ b ∈ idx, b < 128 ∧ b ≠ 58 ∧ b ≠ 32) (hidx0 : idx ≠ [])
    (hrun : run ≤ u32Max) (hlane : lane ≤ u8Max) (htile : tile ≤ u16Max)
    (hx : x ≤ u32Max) (hy : y ≤ u32Max) (hrn : rn ≤ u8Max)
    (hfb : fb = 89 ∨ fb = 78)
    (hcapI : d.instruments.length < 255) (hcapF : d.flowcells.length < 255)
    (hcapU : d.umis.length < 65535) (hcapX : d.indices.length < 255)
    (hfc0 : (tableAdd 255 d.flowcells fc).1 ≠ 0) :
    roundTrip d (joinColon [instr, natToDec run, fc, natToDec lane, natToDec tile, natToDec x, natToDec y, umi, natToDec rn, [fb], idx]) = some (joinColon [instr, natToDec run, fc, natToDec lane, natToDec tile, natToDec x, natToDec y, umi, natToDec rn, [fb], idx]) := by
  have hclean : ∀ q ∈ [instr, natToDec run, fc, natToDec lane, natToDec tile, natToDec x, natToDec y, umi, natToDec rn, [fb], idx], ∀ b ∈ q, isModernDelim b = false := by
    intro q hq b hb
    simp only [List.mem_cons, List.not_mem_nil, or_false] at hq
    rcases hq with rfl | rfl | rfl | rfl | rfl | rfl | rfl | rfl | rfl | rfl | rfl
    · exact isModernDelim_false (hinstr b hb).2.1 (hinstr b hb).2.2
    · have h := natToDec_digit hb
      exact isModernDelim_false (by omega) (by omega)
    · exact isModernDelim_false (hfc b hb).2.1 (hfc b hb).2.2
    · have h := natToDec_digit hb
      exact isModernDelim_false (by omega) (by omega)
    · have h := natToDec_digit hb
      exact isModernDelim_false (by omega) (by omega)
    · have h := natToDec_digit hb
      exact isModernDelim_false (by omega) (by omega)
    · have h := natToDec_digit hb
      exact isModernDelim_false (by omega) (by omega)
    · exact isModernDelim_false (humi b hb).2.1 (humi b hb).2.2
    · have h := natToDec_digit hb
      exact isModernDelim_false (by omega) (by omega)
    · simp only [List.mem_singleton] at hb
      subst hb
      rcases hfb with rfl | rfl <;> rfl
    · exact isModernDelim_false (hidx b hb).2.1 (hidx b hb).2.2
  have hsplit : splitOnDelims isModernDelim (joinColon [instr, natToDec run, fc, natToDec lane, natToDec tile, natToDec x, natToDec y, umi, natToDec rn, [fb], idx]) = [instr, natToDec run, fc, natToDec lane, natToDec tile, natToDec x, natToDec y, umi, natToDec rn, [fb], idx] :=
    splitOnDelims_joinColon isModernDelim rfl _ (by simp) hclean
  have hascii : ∀ b ∈ joinColon [instr, natToDec run, fc, natToDec lane, natToDec tile, natToDec x, natToDec y, umi, natToDec rn, [fb], idx], b ≤ 127 := by
    intro b hb
    rcases mem_joinColon hb with h58 | ⟨q, hq, hbq⟩
    · omega
    · simp only [List.mem_cons, List.not_mem_nil, or_false] at hq
      rcases hq with rfl | rfl | rfl | rfl | rfl | rfl | rfl | rfl | rfl | rfl | rfl
      · have := hinstr b hbq; omega
      · have := natToDec_digit hbq; omega
      · have := hfc b hbq; omega
      · have := natToDec_digit hbq; omega
      · have := natToDec_digit hbq; omega
      · have := natToDec_digit hbq; omega
      · have := natToDec_digit hbq; omega
      · have := humi b hbq; omega
      · have := natToDec_digit hbq; omega
      · simp only [List.mem_singleton] at hbq
        subst hbq
        rcases hfb with rfl | rfl <;> omega
      · have := hidx b hbq; omega
  have hv : utf8ValidateAux 0 (joinColon [instr, natToDec run, fc, natToDec lane, natToDec tile, natToDec x, natToDec y, umi, natToDec rn, [fb], idx]) = .ok () :=
    utf8ValidateAux_ascii _ 0 hascii
  have e1 : parseUint u32Max (natToDec run) = .ok run := parseUint_natToDec _ _ hrun
  have e2 : parseUint u8Max (natToDec lane) = .ok lane := parseUint_natToDec _ _ hlane
  have e3 : parseUint u16Max (natToDec tile) = .ok tile := parseUint_natToDec _ _ htile
  have e4 : parseUint u32Max (natToDec x) = .ok x := parseUint_natToDec _ _ hx
  have e5 : parseUint u32Max (natToDec y) = .ok y := parseUint_natToDec _ _ hy
  have e6 : parseUint u8Max (natToDec rn) = .ok rn := parseUint_natToDec _ _ hrn
  have hpm : parseModernIllumina d (joinColon [instr, natToDec run, fc, natToDec lane, natToDec tile, natToDec x, natToDec y, umi, natToDec rn, [fb], idx]) =
      (Except.ok ({
             instrumentId := (addInstrument d instr).1
             runId := run
             flowcellId := (addFlowcell (addInstrument d instr).2 fc).1
             lane := lane
             tile := tile
             xCoord := x
             yCoord := y
             umiId := some (addUmi (addFlowcell (addInstrument d instr).2 fc).2 umi).1
             readNum := rn
             flags := parseFlagsFromString [fb]
             indexId := some (addIndex (addUmi (addFlowcell (addInstrument d instr).2 fc).2 umi).2 idx).1 } : TokenizedReadName), (addIndex (addUmi (addFlowcell (addInstrument d instr).2 fc).2 umi).2 idx).2) := by
    unfold parseModernIllumina
    rw [hsplit]
    simp only [show ([instr, natToDec run, fc, natToDec lane, natToDec tile, natToDec x, natToDec y, umi, natToDec rn, [fb], idx] : List (List Nat)).length = 11 from rfl,
      show ([instr, natToDec run, fc, natToDec lane, natToDec tile, natToDec x, natToDec y, umi, natToDec rn, [fb], idx] : List (List Nat)).getD 0 [] = instr from rfl,
      show ([instr, natToDec run, fc, natToDec lane, natToDec tile, natToDec x, natToDec y, umi, natToDec rn, [fb], idx] : List (List Nat)).getD 1 [] = natToDec run from rfl,
      show ([instr, natToDec run, fc, natToDec lane, natToDec tile, natToDec x, natToDec y, umi, natToDec rn, [fb], idx] : List (List Nat)).getD 2 [] = fc from rfl,
      show ([instr, natToDec run, fc, natToDec lane, natToDec tile, natToDec x, natToDec y, umi, natToDec rn, [fb], idx] : List (List Nat)).getD 3 [] = natToDec lane from rfl,
      show ([instr, natToDec run, fc, natToDec lane, natToDec tile, natToDec x, natToDec y, umi, natToDec rn, [fb], idx] : List (List Nat)).getD 4 [] = natToDec tile from rfl,
      show ([instr, natToDec run, fc, natToDec lane, natToDec tile, natToDec x, natToDec y, umi, natToDec rn, [fb], idx] : List (List Nat)).getD 5 [] = natToDec x from rfl,
      show ([instr, natToDec run, fc, natToDec lane, natToDec tile, natToDec x, natToDec y, umi, natToDec rn, [fb], idx] : List (List Nat)).getD 6 [] = natToDec y from rfl,
      show ([instr, natToDec run, fc, natToDec lane, natToDec tile, natToDec x, natToDec y, umi, natToDec rn, [fb], idx] : List (List Nat)).getD 7 [] = umi from rfl,
      show ([instr, natToDec run, fc, natToDec lane, natToDec tile, natToDec x, natToDec y, umi, natToDec rn, [fb], idx] : List (List Nat)).getD 8 [] = natToDec rn from rfl,
      show ([instr, natToDec run, fc, natToDec lane, natToDec tile, natToDec x, natToDec y, umi, natToDec rn, [fb], idx] : List (List Nat)).getD 9 [] = [fb] from rfl,
      show ([instr, natToDec run, fc, natToDec lane, natToDec tile, natToDec x, natToDec y, umi, natToDec rn, [fb], idx] : List (List Nat)).getD 10 [] = idx from rfl,
      e1, e2, e3, e4, e5, e6]
    simp [humi0, hidx0]
  have hts : tokenizeSingle d (joinColon [instr, natToDec run, fc, natToDec lane, natToDec tile, natToDec x, natToDec y, umi, natToDec rn, [fb], idx]) = (Except.ok ({
             instrumentId := (addInstrument d instr).1
             runId := run
             flowcellId := (addFlowcell (addInstrument d instr).2 fc).1
             lane := lane
             tile := tile
             xCoord := x
             yCoord := y
             umiId := some (addUmi (addFlowcell (addInstrument d instr).2 fc).2 umi).1
             readNum := rn
             flags := parseFlagsFromString [fb]
             indexId := some (addIndex (addUmi (addFlowcell (addInstrument d instr).2 fc).2 umi).2 idx).1 } : TokenizedReadName), (addIndex (addUmi (addFlowcell (addInstrument d instr).2 fc).2 umi).2 idx).2) := by
    unfold tokenizeSingle
    rw [hv, hpm]
  have hIget : getInstrument ((addIndex (addUmi (addFlowcell (addInstrument d instr).2 fc).2 umi).2 idx).2) (addInstrument d instr).1 = some instr := by
    show (tableAdd 255 d.instruments instr).2.get? (tableAdd 255 d.instruments instr).1
        = some instr
    rw [List.get?_eq_getElem?]
    exact tableAdd_get instr hcapI
  have hFget : getFlowcell ((addIndex (addUmi (addFlowcell (addInstrument d instr).2 fc).2 umi).2 idx).2) (addFlowcell (addInstrument d instr).2 fc).1 = some fc := by
    show (tableAdd 255 d.flowcells fc).2.get? (tableAdd 255 d.flowcells fc).1 = some fc
    rw [List.get?_eq_getElem?]
    exact tableAdd_get fc hcapF
  have hUget : getUmi ((addIndex (addUmi (addFlowcell (addInstrument d instr).2 fc).2 umi).2 idx).2) (addUmi (addFlowcell (addInstrument d instr).2 fc).2 umi).1 = some umi := by
    show (tableAdd 65535 d.umis umi).2.get? (tableAdd 65535 d.umis umi).1 = some umi
    rw [List.get?_eq_getElem?]
    exact tableAdd_get umi hcapU
  have hXget : getIndex ((addIndex (addUmi (addFlowcell (addInstrument d instr).2 fc).2 umi).2 idx).2) (addIndex (addUmi (addFlowcell (addInstrument d instr).2 fc).2 umi).2 idx).1 = some idx := by
    show (tableAdd 255 d.indices idx).2.get? (tableAdd 255 d.indices idx).1 = some idx
    rw [List.get?_eq_getElem?]
    exact tableAdd_get idx hcapX
  have hfid : (addFlowcell (addInstrument d instr).2 fc).1 ≠ 0 := hfc0
  have hflag : (if parseFlagsFromString [fb] % 2 = 1 then (89 : Nat) else 78) = fb := by
    rcases hfb with rfl | rfl <;> rfl
  have hdet : detokenize ((addIndex (addUmi (addFlowcell (addInstrument d instr).2 fc).2 umi).2 idx).2) ({
             instrumentId := (addInstrument d instr).1
             runId := run
             flowcellId := (addFlowcell (addInstrument d instr).2 fc).1
             lane := lane
             tile := tile
             xCoord := x
             yCoord := y
             umiId := some (addUmi (addFlowcell (addInstrument d instr).2 fc).2 umi).1
             readNum := rn
             flags := parseFlagsFromString [fb]
             indexId := some (addIndex (addUmi (addFlowcell (addInstrument d instr).2 fc).2 umi).2 idx).1 } : TokenizedReadName) = .ok (joinColon [instr, natToDec run, fc, natToDec lane, natToDec tile, natToDec x, natToDec y, umi, natToDec rn, [fb], idx]) := by
    unfold detokenize
    rw [show ({
             instrumentId := (addInstrument d instr).1
             runId := run
             flowcellId := (addFlowcell (addInstrument d instr).2 fc).1
             lane := lane
             tile := tile
             xCoord := x
             yCoord := y
             umiId := some (addUmi (addFlowcell (addInstrument d instr).2 fc).2 umi).1
             readNum := rn
             flags := parseFlagsFromString [fb]
             indexId := some (addIndex (addUmi (addFlowcell (addInstrument d instr).2 fc).2 umi).2 idx).1 } : TokenizedReadName).instrumentId = (addInstrument d instr).1 from rfl]
    rw [hIget]
    simp only
    rw [if_neg (by exact hfid)]
    rw [hFget, hUget, hXget]
    simp only [hflag]
    simp [joinColon, List.append_assoc]
  unfold roundTrip
  simp only [hts, hdet]

/-- C1 amended, witnessed on a dictionary whose flowcell table already holds
one entry, so the name's flowcell resolves to id 1. -/
theorem modern_roundtrip_witness :
    roundTrip ⟨[], [[71]], [], []⟩
      (joinColon [[73], natToDec 123, [70], natToDec 1, natToDec 2, natToDec 3,
        natToDec 4, [85], natToDec 2, [89], [88]])
      = some (joinColon [[73], natToDec 123, [70], natToDec 1, natToDec 2, natToDec 3,
          natToDec 4, [85], natToDec 2, [89], [88]]) :=
  modern_roundtrip ⟨[], [[71]], [], []⟩ [73] [70] [85] [88] 123 1 2 3 4 2 89
    (by decide) (by decide) (by decide) (by decide) (by decide) (by decide)
    (by decide) (by decide) (by decide) (by decide) (by decide) (by decide)
    (by decide) (by decide) (by decide) (by decide) (by decide) (by decide)

/-! # Claim C10: flowcell id 0 collision -/

/-- C10: on a fresh tokenizer, the first flowcell interned by the modern
parser receives dictionary id 0 — the legacy-format "absent" sentinel — so a
successfully parsed modern name carries `flowcell_id = 0`, and detokenizing
its token renders the legacy shape `instrument:lane:tile:x:y`, omitting the
run, flowcell, UMI, read-number and flags fields of the modern layout. -/
theorem first_flowcell_is_legacy_sentinel
    (instr fc : List Nat) (run lane tile x y : Nat)
    (hinstr : ∀ b ∈ instr, b < 128 ∧ b ≠ 58 ∧ b ≠ 32)
    (hfc : ∀ b ∈ fc, b < 128 ∧ b ≠ 58 ∧ b ≠ 32)
    (hrun : run ≤ u32Max) (hlane : lane ≤ u8Max) (htile : tile ≤ u16Max)
    (hx : x ≤ u32Max) (hy : y ≤ u32Max) :
    tokenizeSingle ReadNameDictionary.new (joinColon [instr, natToDec run, fc, natToDec lane, natToDec tile, natToDec x, natToDec y])
        = (Except.ok ({
             instrumentId := (addInstrument ReadNameDictionary.new instr).1
             runId := run
             flowcellId := (addFlowcell (addInstrument ReadNameDictionary.new instr).2 fc).1
             lane := lane
             tile := tile
             xCoord := x
             yCoord := y
             umiId := none
             readNum := 1
             flags := 0
             indexId := none } : TokenizedReadName), (addFlowcell (addInstrument ReadNameDictionary.new instr).2 fc).2) ∧
    (({
             instrumentId := (addInstrument ReadNameDictionary.new instr).1
             runId := run
             flowcellId := (addFlowcell (addInstrument ReadNameDictionary.new instr).2 fc).1
             lane := lane
             tile := tile
             xCoord := x
             yCoord := y
             umiId := none
             readNum := 1
             flags := 0
             indexId := none } : TokenizedReadName)).flowcellId = 0 ∧
    detokenize ((addFlowcell (addInstrument ReadNameDictionary.new instr).2 fc).2) (({
             instrumentId := (addInstrument ReadNameDictionary.new instr).1
             runId := run
             flowcellId := (addFlowcell (addInstrument ReadNameDictionary.new instr).2 fc).1
             lane := lane
             tile := tile
             xCoord := x
             yCoord := y
             umiId := none
             readNum := 1
             flags := 0
             indexId := none } : TokenizedReadName)) = .ok (joinColon [instr, natToDec lane, natToDec tile, natToDec x, natToDec y]) := by
  have hclean : ∀ q ∈ [instr, natToDec run, fc, natToDec lane, natToDec tile, natToDec x, natToDec y], ∀ b ∈ q, isModernDelim b = false := by
    intro q hq b hb
    simp only [List.mem_cons, List.not_mem_nil, or_false] at hq
    rcases hq with rfl | rfl | rfl | rfl | rfl | rfl | rfl
    · exact isModernDelim_false (hinstr b hb).2.1 (hinstr b hb).2.2
    · have h := natToDec_digit hb
      exact isModernDelim_false (by omega) (by omega)
    · exact isModernDelim_false (hfc b hb).2.1 (hfc b hb).2.2
    · have h := natToDec_digit hb
      exact isModernDelim_false (by omega) (by omega)
    · have h := natToDec_digit hb
      exact isModernDelim_false (by omega) (by omega)
    · have h := natToDec_digit hb
      exact isModernDelim_false (by omega) (by omega)
    · have h := natToDec_digit hb
      exact isModernDelim_false (by omega) (by omega)
  have hsplit : splitOnDelims isModernDelim (joinColon [instr, natToDec run, fc, natToDec lane, natToDec tile, natToDec x, natToDec y]) = [instr, natToDec run, fc, natToDec lane, natToDec tile, natToDec x, natToDec y] :=
    splitOnDelims_joinColon isModernDelim rfl _ (by simp) hclean
  have hascii : ∀ b ∈ joinColon [instr, natToDec run, fc, natToDec lane, natToDec tile, natToDec x, natToDec y], b ≤ 127 := by
    intro b hb
    rcases mem_joinColon hb with h58 | ⟨q, hq, hbq⟩
    · omega
    · simp only [List.mem_cons, List.not_mem_nil, or_false] at hq
      rcases hq with rfl | rfl | rfl | rfl | rfl | rfl | rfl
      · have := hinstr b hbq; omega
      · have := natToDec_digit hbq; omega
      · have := hfc b hbq; omega
      · have := natToDec_digit hbq; omega
      · have := natToDec_digit hbq; omega
      · have := natToDec_digit hbq; omega
      · have := natToDec_digit hbq; omega
  have hv : utf8ValidateAux 0 (joinColon [instr, natToDec run, fc, natToDec lane, natToDec tile, natToDec x, natToDec y]) = .ok () :=
    utf8ValidateAux_ascii _ 0 hascii
  have e1 : parseUint u32Max (natToDec run) = .ok run := parseUint_natToDec _ _ hrun
  have e2 : parseUint u8Max (natToDec lane) = .ok lane := parseUint_natToDec _ _ hlane
  have e3 : parseUint u16Max (natToDec tile) = .ok tile := parseUint_natToDec _ _ htile
  have e4 : parseUint u32Max (natToDec x) = .ok x := parseUint_natToDec _ _ hx
  have e5 : parseUint u32Max (natToDec y) = .ok y := parseUint_natToDec _ _ hy
  have hpm : parseModernIllumina ReadNameDictionary.new (joinColon [instr, natToDec run, fc, natToDec lane, natToDec tile, natToDec x, natToDec y])
      = (Except.ok ({
             instrumentId := (addInstrument ReadNameDictionary.new instr).1
             runId := run
             flowcellId := (addFlowcell (addInstrument ReadNameDictionary.new instr).2 fc).1
             lane := lane
             tile := tile
             xCoord := x
             yCoord := y
             umiId := none
             readNum := 1
             flags := 0
             indexId := none } : TokenizedReadName), (addFlowcell (addInstrument ReadNameDictionary.new instr).2 fc).2) := by
    unfold parseModernIllumina
    rw [hsplit]
    simp only [show ([instr, natToDec run, fc, natToDec lane, natToDec tile, natToDec x, natToDec y] : List (List Nat)).length = 7 from rfl,
      show ([instr, natToDec run, fc, natToDec lane, natToDec tile, natToDec x, natToDec y] : List (List Nat)).getD 0 [] = instr from rfl,
      show ([instr, natToDec run, fc, natToDec lane, natToDec tile, natToDec x, natToDec y] : List (List Nat)).getD 1 [] = natToDec run from rfl,
      show ([instr, natToDec run, fc, natToDec lane, natToDec tile, natToDec x, natToDec y] : List (List Nat)).getD 2 [] = fc from rfl,
      show ([instr, natToDec run, fc, natToDec lane, natToDec tile, natToDec x, natToDec y] : List (List Nat)).getD 3 [] = natToDec lane from rfl,
      show ([instr, natToDec run, fc, natToDec lane, natToDec tile, natToDec x, natToDec y] : List (List Nat)).getD 4 [] = natToDec tile from rfl,
      show ([instr, natToDec run, fc, natToDec lane, natToDec tile, natToDec x, natToDec y] : List (List Nat)).getD 5 [] = natToDec x from rfl,
      show ([instr, natToDec run, fc, natToDec lane, natToDec tile, natToDec x, natToDec y] : List (List Nat)).getD 6 [] = natToDec y from rfl,
      e1, e2, e3, e4, e5]
    simp
  have hts : tokenizeSingle ReadNameDictionary.new (joinColon [instr, natToDec run, fc, natToDec lane, natToDec tile, natToDec x, natToDec y])
      = (Except.ok ({
             instrumentId := (addInstrument ReadNameDictionary.new instr).1
             runId := run
             flowcellId := (addFlowcell (addInstrument ReadNameDictionary.new instr).2 fc).1
             lane := lane
             tile := tile
             xCoord := x
             yCoord := y
             umiId := none
             readNum := 1
             flags := 0
             indexId := none } : TokenizedReadName), (addFlowcell (addInstrument ReadNameDictionary.new instr).2 fc).2) := by
    unfold tokenizeSingle
    rw [hv, hpm]
  have hIget : getInstrument ((addFlowcell (addInstrument ReadNameDictionary.new instr).2 fc).2) (addInstrument ReadNameDictionary.new instr).1
      = some instr := by
    show (tableAdd 255 ([] : List (List Nat)) instr).2.get?
        (tableAdd 255 ([] : List (List Nat)) instr).1 = some instr
    rw [List.get?_eq_getElem?]
    exact tableAdd_get instr (by decide)
  have hfid0 : (({
             instrumentId := (addInstrument ReadNameDictionary.new instr).1
             runId := run
             flowcellId := (addFlowcell (addInstrument ReadNameDictionary.new instr).2 fc).1
             lane := lane
             tile := tile
             xCoord := x
             yCoord := y
             umiId := none
             readNum := 1
             flags := 0
             indexId := none } : TokenizedReadName)).flowcellId = 0 := rfl
  have hdet : detokenize ((addFlowcell (addInstrument ReadNameDictionary.new instr).2 fc).2) ({
             instrumentId := (addInstrument ReadNameDictionary.new instr).1
             runId := run
             flowcellId := (addFlowcell (addInstrument ReadNameDictionary.new instr).2 fc).1
             lane := lane
             tile := tile
             xCoord := x
             yCoord := y
             umiId := none
             readNum := 1
             flags := 0
             indexId := none } : TokenizedReadName) = .ok (joinColon [instr, natToDec lane, natToDec tile, natToDec x, natToDec y]) := by
    unfold detokenize
    rw [hIget]
    simp only
    rw [if_pos hfid0]
    simp [joinColon, List.append_assoc]
  exact ⟨hts, hfid0, hdet⟩

/-- C10 witnessed: detokenizing the token of a first-flowcell modern name
yields the legacy shape. -/
theorem first_flowcell_is_legacy_sentinel_witness :
    detokenize (addFlowcell (addInstrument ReadNameDictionary.new [73]).2 [70, 67]).2
        ({
          instrumentId := (addInstrument ReadNameDictionary.new [73]).1
          runId := 123
          flowcellId := (addFlowcell (addInstrument ReadNameDictionary.new [73]).2 [70, 67]).1
          lane := 1
          tile := 2
          xCoord := 3
          yCoord := 4
          umiId := none
          readNum := 1
          flags := 0
          indexId := none } : TokenizedReadName)
      = .ok (joinColon [[73], natToDec 1, natToDec 2, natToDec 3, natToDec 4]) :=
  (first_flowcell_is_legacy_sentinel [73] [70, 67] 123 1 2 3 4
    (by decide) (by decide) (by decide) (by decide) (by decide)
    (by decide) (by decide)).2.2

/-! # Claim C6: batch error propagation -/

/-- Whether the modern parser succeeds depends only on the name (dictionary
interning never fails). -/
theorem parseModern_isOk (d : ReadNameDictionary) (name : List Nat) :
    (parseModernIllumina d name).1.isOk = modernOk name := by
  unfold parseModernIllumina modernOk
  simp only [List.getD_eq_getElem?_getD]
  by_cases h7 : (splitOnDelims isModernDelim name).length < 7
  · rw [if_pos h7]
    have h7' : ¬ (7 ≤ (splitOnDelims isModernDelim name).length) := by omega
    simp [Except.isOk, Except.toBool, h7']
  · rw [if_neg h7]
    have h7' : 7 ≤ (splitOnDelims isModernDelim name).length := by omega
    cases hp1 : parseUint u32Max ((splitOnDelims isModernDelim name)[1]?.getD []) with
    | error e => simp [Except.isOk, Except.toBool]
    | ok v1 =>
      cases hp2 : parseUint u8Max ((splitOnDelims isModernDelim name)[3]?.getD []) with
      | error e => simp [Except.isOk, Except.toBool]
      | ok v2 =>
        cases hp3 : parseUint u16Max ((splitOnDelims isModernDelim name)[4]?.getD []) with
        | error e => simp [Except.isOk, Except.toBool]
        | ok v3 =>
          cases hp4 : parseUint u32Max ((splitOnDelims isModernDelim name)[5]?.getD []) with
          | error e => simp [Except.isOk, Except.toBool]
          | ok v4 =>
            cases hp5 : parseUint u32Max ((splitOnDelims isModernDelim name)[6]?.getD []) with
            | error e => simp [Except.isOk, Except.toBool]
            | ok v5 => simp [Except.isOk, Except.toBool, h7']

/-- Whether the legacy parser succeeds depends only on the name. -/
theorem parseLegacy_isOk (d : ReadNameDictionary) (name : List Nat) :
    (parseLegacyIllumina d name).1.isOk = legacyOk name := by
  unfold parseLegacyIllumina legacyOk
  simp only [List.getD_eq_getElem?_getD]
  by_cases h5 : (splitBytes ((splitBytes name 35)[0]?.getD []) 58).length = 5
  · rw [if_neg (by omega)]
    cases hp1 : parseUint u8Max ((splitBytes ((splitBytes name 35)[0]?.getD []) 58)[1]?.getD []) with
    | error e => simp [Except.isOk, Except.toBool]
    | ok v1 =>
      cases hp2 : parseUint u16Max ((splitBytes ((splitBytes name 35)[0]?.getD []) 58)[2]?.getD []) with
      | error e => simp [Except.isOk, Except.toBool]
      | ok v2 =>
        cases hp3 : parseUint u32Max ((splitBytes ((splitBytes name 35)[0]?.getD []) 58)[3]?.getD []) with
        | error e => simp [Except.isOk, Except.toBool]
        | ok v3 =>
          cases hp4 : parseUint u32Max ((splitBytes ((splitBytes name 35)[0]?.getD []) 58)[4]?.getD []) with
          | error e => simp [Except.isOk, Except.toBool]
          | ok v4 => simp [Except.isOk, Except.toBool, h5]
  · rw [if_pos h5]
    simp [Except.isOk, Except.toBool, h5]

/-- `tokenize_single` succeeds exactly on `parseOk` names, for every
dictionary state. -/
theorem tokenizeSingle_isOk (d : ReadNameDictionary) (name : List Nat) :
    (tokenizeSingle d name).1.isOk = parseOk name := by
  unfold tokenizeSingle parseOk
  cases hu : utf8ValidateAux 0 name with
  | error e => simp [hu, Except.isOk, Except.toBool]
  | ok u =>
    rcases hm : parseModernIllumina d name with ⟨me, md⟩
    have hmo := parseModern_isOk d name
    rw [hm] at hmo
    cases me with
    | ok tok =>
      simp only [Except.isOk, Except.toBool] at hmo
      simp [hu, hm, Except.isOk, Except.toBool, ← hmo]
    | error e =>
      simp only [Except.isOk, Except.toBool] at hmo
      rcases hl : parseLegacyIllumina md name with ⟨le, ld⟩
      have hlo := parseLegacy_isOk md name
      rw [hl] at hlo
      cases le with
      | ok tok2 =>
        simp only [Except.isOk, Except.toBool] at hlo
        simp [hu, hm, hl, Except.isOk, Except.toBool, ← hmo, ← hlo]
      | error e2 =>
        simp only [Except.isOk, Except.toBool] at hlo
        simp [hu, hm, hl, Except.isOk, Except.toBool, ← hmo, ← hlo]

theorem tokenizeBatchAux_all_ok (l : List (List Nat)) :
    ∀ (tz : IlluminaTokenizer) (i : Nat), (∀ n ∈ l, parseOk n = true) →
      ∃ toks tz', tokenizeBatchAux tz i l = .ok (toks, tz') ∧ toks.length = l.length := by
  induction l with
  | nil => intro tz i _; exact ⟨[], tz, rfl, rfl⟩
  | cons n rest ih =>
    intro tz i hall
    have hok : (tokenizeSingle tz.dictionary n).1.isOk = true := by
      rw [tokenizeSingle_isOk]
      exact hall n (by simp)
    rcases hS : tokenizeSingle tz.dictionary n with ⟨se, sd⟩
    cases se with
    | error e =>
      rw [hS] at hok
      simp [Except.isOk, Except.toBool] at hok
    | ok tok =>
      obtain ⟨toks, tz', heq, hlen⟩ :=
        ih ⟨sd, tz.totalReadsProcessed + 1, tz.successfullyTokenized + 1⟩ (i + 1)
          (fun m hm => hall m (by simp [hm]))
      refine ⟨tok :: toks, tz', ?_, by simp [hlen]⟩
      simp [tokenizeBatchAux, hS, heq]

theorem tokenizeBatchAux_first_error (l : List (List Nat)) :
    ∀ (tz : IlluminaTokenizer) (i j : Nat) (bad : List Nat),
      l.get? j = some bad → parseOk bad = false →
      (l.take j).all parseOk = true →
      ∃ e, tokenizeBatchAux tz i l = .error (.parseError (fmtBatchError (i + j) bad e)) := by
  induction l with
  | nil => intro tz i j bad hj _ _; simp at hj
  | cons n rest ih =>
    intro tz i j bad hj hbad htake
    cases j with
    | zero =>
      simp at hj
      subst hj
      have hnok : (tokenizeSingle tz.dictionary n).1.isOk = false := by
        rw [tokenizeSingle_isOk]
        exact hbad
      rcases hS : tokenizeSingle tz.dictionary n with ⟨se, sd⟩
      cases se with
      | ok tok =>
        rw [hS] at hnok
        simp [Except.isOk, Except.toBool] at hnok
      | error e =>
        refine ⟨e, ?_⟩
        simp [tokenizeBatchAux, hS]
    | succ j' =>
      simp only [List.get?_cons_succ] at hj
      simp only [List.take_succ_cons, List.all_cons, Bool.and_eq_true] at htake
      have hok : (tokenizeSingle tz.dictionary n).1.isOk = true := by
        rw [tokenizeSingle_isOk]
        exact htake.1
      rcases hS : tokenizeSingle tz.dictionary n with ⟨se, sd⟩
      cases se with
      | error e =>
        rw [hS] at hok
        simp [Except.isOk, Except.toBool] at hok
      | ok tok =>
        obtain ⟨e, heq⟩ :=
          ih ⟨sd, tz.totalReadsProcessed + 1, tz.successfullyTokenized + 1⟩ (i + 1) j' bad
            hj hbad htake.2
        refine ⟨e, ?_⟩
        have harith : i + 1 + j' = i + (j' + 1) := by omega
        rw [← harith]
        simp [tokenizeBatchAux, hS, heq]

/-- C6: `tokenize_batch` is all-or-nothing.  If every name of the batch
tokenizes, it returns `Ok` with one token per name; as soon as some name is
rejected — at the first such index `j` — it returns a `ParseError` whose
message contains the decimal index `j` and the lossy UTF-8 rendering of the
offending name, and never an `Ok` with a partial result. -/
theorem tokenize_batch_error_propagation (tz : IlluminaTokenizer)
    (batch : List (List Nat)) :
    ((∀ n ∈ batch, parseOk n = true) →
      ∃ toks tz', tokenizeBatch tz batch = .ok (toks, tz') ∧
        toks.length = batch.length) ∧
    (∀ j bad, batch.get? j = some bad → parseOk bad = false →
      (batch.take j).all parseOk = true →
      ∃ msg, tokenizeBatch tz batch = .error (.parseError msg) ∧
        natToDec j <:+: msg ∧ utf8Lossy bad <:+: msg) := by
  constructor
  · intro hall
    exact tokenizeBatchAux_all_ok batch tz 0 hall
  · intro j bad hj hbad htake
    obtain ⟨e, heq⟩ := tokenizeBatchAux_first_error batch tz 0 j bad hj hbad htake
    rw [Nat.zero_add] at heq
    refine ⟨fmtBatchError j bad e, heq, ?_, ?_⟩
    · exact ⟨litBytes "Failed to tokenize read ",
        litBytes " (" ++ utf8Lossy bad ++ litBytes "): " ++ displayTokenizationError e,
        by simp [fmtBatchError]⟩
    · exact ⟨litBytes "Failed to tokenize read " ++ natToDec j ++ litBytes " (",
        litBytes "): " ++ displayTokenizationError e,
        by simp [fmtBatchError]⟩

/-- C6 witnessed on the specification's scenario-3 batch. -/
theorem tokenize_batch_error_propagation_witness :
    ∃ msg, tokenizeBatch IlluminaTokenizer.new
        [litBytes "HWI:1:FC:1:1:1:1", litBytes "not-a-read-name"]
        = .error (.parseError msg) ∧
      natToDec 1 <:+: msg ∧ utf8Lossy (litBytes "not-a-read-name") <:+: msg :=
  (tokenize_batch_error_propagation IlluminaTokenizer.new
    [litBytes "HWI:1:FC:1:1:1:1", litBytes "not-a-read-name"]).2 1
    (litBytes "not-a-read-name") (by decide) (by decide) (by decide)

end Gbam
